import Mathlib

/-!
# Access-token grants (package token, access_token_grant.go)

A shallow embedding of the five grant types of the package and of their
methods Key and ToPayload, followed by theorems about the payloads.

Modelling choices:

* A Go string is a Lean String; the builtin len on a string is its length in
  bytes, String.utf8ByteSize.
* A Go value of type interface is a Value. A Go map from strings to interface
  values is a GoMap: none is the nil map, some es is an allocated map whose
  entries es are kept in the order in which their keys were first assigned.
  Assignment m[k] = v replaces the value of a key that is present and adds
  the key when it is absent, so keys stay distinct.
* ToPayload always returns a map it allocated itself (by make or by a map
  literal), never nil; the model returns the entries of that map.
* Maps are references in Go. The methods are therefore embedded a second time
  (ToPayloadRef) as transformers of a heap of maps, in which the voice grant
  holds its params map by reference; readCell reads a payload back from the
  heap, and the first embedding is shown to be what the second computes
  (voiceRef_refines, ipMessageRef_refines, literalRef_refines).
* Go maps have no order: two payloads are compared by payloadEq, equality of
  normal forms in which the entries of every map are sorted by key. For maps
  with distinct keys this is the same as holding structurally equal values
  under the same keys (payloadEq_iff_index).
-/

namespace Token

/-! ## Values and maps -/

/-- Values that a Go interface can hold, as far as the payloads need them:
the nil interface, strings, booleans, numbers and maps from strings to values
(none being the nil map). -/
inductive Value where
  | null
  | str (s : String)
  | bool (b : Bool)
  | num (n : Int)
  | map (m : Option (List (String × Value)))

/-- Entries of an allocated Go map, in order of first assignment. -/
abbrev Entries := List (String × Value)

/-- Go variable of type map from string to interface; none is the nil map. -/
abbrev GoMap := Option Entries

mutual
/-- Decision procedure for equality of values. -/
def Value.decEq : (a b : Value) → Decidable (a = b)
  | .null, .null => isTrue rfl
  | .null, .str _ | .null, .bool _ | .null, .num _ | .null, .map _ => isFalse nofun
  | .str a, .str b =>
    if h : a = b then isTrue (congrArg Value.str h) else isFalse (fun e => h (Value.str.inj e))
  | .str _, .null | .str _, .bool _ | .str _, .num _ | .str _, .map _ => isFalse nofun
  | .bool a, .bool b =>
    if h : a = b then isTrue (congrArg Value.bool h) else isFalse (fun e => h (Value.bool.inj e))
  | .bool _, .null | .bool _, .str _ | .bool _, .num _ | .bool _, .map _ => isFalse nofun
  | .num a, .num b =>
    if h : a = b then isTrue (congrArg Value.num h) else isFalse (fun e => h (Value.num.inj e))
  | .num _, .null | .num _, .str _ | .num _, .bool _ | .num _, .map _ => isFalse nofun
  | .map none, .map none => isTrue rfl
  | .map none, .map (some _) | .map (some _), .map none => isFalse nofun
  | .map (some xs), .map (some ys) =>
    match Value.decEqEntries xs ys with
    | isTrue h => isTrue (congrArg (fun es => Value.map (some es)) h)
    | isFalse h => isFalse (fun e => h (Option.some.inj (Value.map.inj e)))
  | .map _, .null | .map _, .str _ | .map _, .bool _ | .map _, .num _ => isFalse nofun
/-- Decision procedure for equality of entry lists. -/
def Value.decEqEntries :
    (xs ys : List (String × Value)) → Decidable (xs = ys)
  | [], [] => isTrue rfl
  | [], _ :: _ | _ :: _, [] => isFalse nofun
  | (k, v) :: xs, (k2, v2) :: ys =>
    if hk : k = k2 then
      match Value.decEq v v2 with
      | isTrue hv =>
        match Value.decEqEntries xs ys with
        | isTrue hr => isTrue (by rw [hk, hv, hr])
        | isFalse hr => isFalse (fun e => hr (List.cons.inj e).2)
      | isFalse hv => isFalse (fun e => hv (Prod.mk.inj (List.cons.inj e).1).2)
    else isFalse (fun e => hk (Prod.mk.inj (List.cons.inj e).1).1)
end

instance : DecidableEq Value := Value.decEq

/-- Go builtin len on a string: the number of bytes. -/
def len (s : String) : Nat := s.utf8ByteSize

/-- Go builtin len on a map: the number of entries; 0 for the nil map. -/
def lenMap : GoMap → Nat
  | none => 0
  | some es => es.length

/-- Go builtin make for a map: a fresh allocated map without entries. -/
def make : Entries := []

/-- Go index expression m[k] in its two-result form: the value under k, if any. -/
def mapIndex : Entries → String → Option Value
  | [], _ => none
  | (k2, v) :: rest, k => if k2 = k then some v else mapIndex rest k

/-- Go assignment m[k] = v on an allocated map. -/
def mapAssign : Entries → String → Value → Entries
  | [], k, v => [(k, v)]
  | (k2, v2) :: rest, k, v =>
    if k2 = k then (k2, v) :: rest else (k2, v2) :: mapAssign rest k v

/-- Keys of an allocated map. -/
def mapKeys (m : Entries) : List String := m.map Prod.fst

/-- Whether a map variable holds no entry: the nil map and the allocated map
without entries are both empty. -/
def isEmptyMap : GoMap → Bool
  | none => true
  | some [] => true
  | some (_ :: _) => false

/-! ## Constants of the package -/

def ipMessagingGrant : String := "ip_messaging"
def conversationsGrant : String := "rtc"
def voiceGrant : String := "voice"
def videoGrant : String := "video"
def keyServiceSid : String := "service_sid"
def keyEndpointId : String := "endpoint_id"
def keyDepRoleSide : String := "deployment_role_sid"
def keyPushCredSid : String := "push_credential_sid"
def keyVoiceOutgoing : String := "outgoing"
def keyVoiceIncoming : String := "incoming"
def keyConfProfSid : String := "configuration_profile_sid"
def keyAppSid : String := "application_sid"
def keyVoiceParams : String := "params"
def keyRoomSid : String := "room"
def chatGrant : String := "chat"

/-! ## IPMessageGrant -/

/-- Grant for IP Messaging. -/
structure IPMessageGrant where
  serviceSid : String
  endpointID : String
  deploymentRoleSid : String
  pushCredentialSid : String
  deriving DecidableEq

def NewIPMessageGrant (serviceSid endpointID deploymentRoleSid pushCredentialSid : String) :
    IPMessageGrant :=
  { serviceSid := serviceSid
    endpointID := endpointID
    deploymentRoleSid := deploymentRoleSid
    pushCredentialSid := pushCredentialSid }

def IPMessageGrant.ToPayload (gr : IPMessageGrant) : Entries :=
  let grant := make
  let grant :=
    if len gr.serviceSid > 0 then mapAssign grant keyServiceSid (.str gr.serviceSid) else grant
  let grant :=
    if len gr.endpointID > 0 then mapAssign grant keyEndpointId (.str gr.endpointID) else grant
  let grant :=
    if len gr.deploymentRoleSid > 0 then
      mapAssign grant keyDepRoleSide (.str gr.deploymentRoleSid)
    else grant
  let grant :=
    if len gr.pushCredentialSid > 0 then
      mapAssign grant keyPushCredSid (.str gr.pushCredentialSid)
    else grant
  grant

def IPMessageGrant.Key (_gr : IPMessageGrant) : String := ipMessagingGrant

/-! ## ConversationsGrant -/

/-- Grant for Conversations. -/
structure ConversationsGrant where
  configurationProfileSid : String
  deriving DecidableEq

def NewConversationsGrant (sid : String) : ConversationsGrant :=
  { configurationProfileSid := sid }

def ConversationsGrant.ToPayload (gr : ConversationsGrant) : Entries :=
  if len gr.configurationProfileSid > 0 then
    [(keyConfProfSid, .str gr.configurationProfileSid)]
  else
    make

def ConversationsGrant.Key (_gr : ConversationsGrant) : String := conversationsGrant

/-! ## VoiceGrant -/

/-- Grant for Voice. -/
structure VoiceGrant where
  outgoingApplicationSid : String
  outgoingApplicationParams : GoMap
  endpointID : String
  pushCredentialSid : String
  incoming : Bool
  deriving DecidableEq

def NewVoiceGrant (outAppSid : String) (outAppParams : GoMap) (endpointID : String)
    (pushCredentialSid : String) (incoming : Bool) : VoiceGrant :=
  { outgoingApplicationSid := outAppSid
    outgoingApplicationParams := outAppParams
    endpointID := endpointID
    pushCredentialSid := pushCredentialSid
    incoming := incoming }

def VoiceGrant.ToPayload (gr : VoiceGrant) : Entries :=
  let outVoice := make
  let outVoice :=
    if len gr.outgoingApplicationSid > 0 then
      mapAssign outVoice keyAppSid (.str gr.outgoingApplicationSid)
    else outVoice
  let outVoice :=
    if lenMap gr.outgoingApplicationParams > 0 then
      mapAssign outVoice keyVoiceParams (.map gr.outgoingApplicationParams)
    else outVoice
  let grant := make
  let grant := mapAssign grant keyVoiceOutgoing (.map (some outVoice))
  let grant :=
    if gr.incoming then
      mapAssign grant keyVoiceIncoming (.map (some [("allow", .bool true)]))
    else grant
  let grant :=
    if len gr.endpointID > 0 then mapAssign grant keyEndpointId (.str gr.endpointID) else grant
  let grant :=
    if len gr.pushCredentialSid > 0 then
      mapAssign grant keyPushCredSid (.str gr.pushCredentialSid)
    else grant
  grant

def VoiceGrant.Key (_gr : VoiceGrant) : String := voiceGrant

/-! ## VideoGrant -/

/-- Grant for Programmable Video. -/
structure VideoGrant where
  roomSID : String
  deriving DecidableEq

def NewVideoGrant (sid : String) : VideoGrant := { roomSID := sid }

def VideoGrant.ToPayload (gr : VideoGrant) : Entries :=
  if len gr.roomSID > 0 then
    [(keyRoomSid, .str gr.roomSID)]
  else
    make

def VideoGrant.Key (_gr : VideoGrant) : String := videoGrant

/-! ## ChatGrant -/

/-- Grant for Programmable Chat. -/
structure ChatGrant where
  serviceSid : String
  deriving DecidableEq

def NewChatGrant (sid : String) : ChatGrant := { serviceSid := sid }

def ChatGrant.ToPayload (cg : ChatGrant) : Entries :=
  if len cg.serviceSid > 0 then
    [(keyServiceSid, .str cg.serviceSid)]
  else
    make

def ChatGrant.Key (_cg : ChatGrant) : String := chatGrant

/-! ## Structural equality

Go maps have no order, so two payloads are compared up to the order of their
entries, at every depth: two maps are structurally equal when both are nil or
both are allocated and they hold the same keys with structurally equal values.
Each value has a normal form, in which the entries of every allocated map are
sorted by key; two values are structurally equal when their normal forms are
the same. -/

/-- Lexicographic order on character lists, by code point. -/
def charsLess : List Char → List Char → Bool
  | [], [] => false
  | [], _ :: _ => true
  | _ :: _, [] => false
  | a :: as, b :: bs =>
    if a.toNat < b.toNat then true
    else if a.toNat = b.toNat then charsLess as bs
    else false

/-- Order on keys used for the normal form: lexicographic by code point. -/
def keyLess (a b : String) : Bool := charsLess a.data b.data

/-- Put an entry into a list of entries sorted by key, in front of the first
entry whose key is not smaller. -/
def insertByKey (k : String) (v : Value) : Entries → Entries
  | [] => [(k, v)]
  | (k2, v2) :: rest =>
    if keyLess k2 k then (k2, v2) :: insertByKey k v rest else (k, v) :: (k2, v2) :: rest

mutual
/-- Normal form of a value: the entries of every allocated map sorted by key. -/
def Value.norm : Value → Value
  | .null => .null
  | .str s => .str s
  | .bool b => .bool b
  | .num n => .num n
  | .map none => .map none
  | .map (some es) => .map (some (Value.normEntries es))
/-- Normal form of the entries of an allocated map. -/
def Value.normEntries : List (String × Value) → List (String × Value)
  | [] => []
  | (k, v) :: rest => insertByKey k (Value.norm v) (Value.normEntries rest)
end

/-- Entries in strictly increasing order of their keys. -/
def keysSorted (m : Entries) : Prop :=
  m.Pairwise (fun e1 e2 => keyLess e1.1 e2.1 = true)

/-- Structural equality of two values. -/
def structEq (a b : Value) : Prop := a.norm = b.norm

instance (a b : Value) : Decidable (structEq a b) := inferInstanceAs (Decidable (a.norm = b.norm))

/-- Structural equality of two allocated maps, such as two payloads. -/
def payloadEq (m1 m2 : Entries) : Prop := Value.normEntries m1 = Value.normEntries m2

instance (m1 m2 : Entries) : Decidable (payloadEq m1 m2) :=
  inferInstanceAs (Decidable (Value.normEntries m1 = Value.normEntries m2))

/-- Structural equality of two map variables, where a nil map and an allocated
map without entries count as the same. -/
def paramsEq (p1 p2 : GoMap) : Prop :=
  (isEmptyMap p1 = true ∧ isEmptyMap p2 = true) ∨ structEq (.map p1) (.map p2)

instance (p1 p2 : GoMap) : Decidable (paramsEq p1 p2) :=
  inferInstanceAs (Decidable (_ ∨ _))

/-! ## Maps held by reference

A Go map is a reference: the voice grant keeps the map of its caller, and the
payload it returns holds that same map under "params". To speak about side
effects and about repeated calls, the methods are embedded a second time as
transformers of a heap of maps. A reference is the index of a cell of the heap;
make and map literals add a cell at the end; an assignment m[k] = v rewrites
the cell of m. The receiver is passed as a value: no method of the source
assigns to a field of its receiver. -/

/-- Values that a Go interface can hold when maps are references into a heap:
mapRef none is the nil map, mapRef (some a) the map in cell a. -/
inductive HValue where
  | null
  | str (s : String)
  | bool (b : Bool)
  | num (n : Int)
  | mapRef (r : Option Nat)
  deriving DecidableEq

/-- Entries of one map of the heap. -/
abbrev Cell := List (String × HValue)

/-- Heap of maps; the map with reference a is the cell at index a. -/
abbrev Heap := List Cell

/-- Entries of the map with reference a. -/
def heapCell (h : Heap) (a : Nat) : Cell := h.getD a []

/-- Go builtin len on a map reference; 0 for the nil map. -/
def lenRef (h : Heap) : Option Nat → Nat
  | none => 0
  | some a => (heapCell h a).length

/-- Go builtin make for a map: a new cell without entries, and its reference. -/
def makeRef (h : Heap) : Heap × Nat := (h ++ [[]], h.length)

/-- Go map literal: a new cell holding the given entries, and its reference. -/
def makeLit (h : Heap) (c : Cell) : Heap × Nat := (h ++ [c], h.length)

/-- Go assignment m[k] = v inside one cell. -/
def cellAssign : Cell → String → HValue → Cell
  | [], k, v => [(k, v)]
  | (k2, v2) :: rest, k, v =>
    if k2 = k then (k2, v) :: rest else (k2, v2) :: cellAssign rest k v

/-- Go assignment m[k] = v for the map with reference a. -/
def heapStore : Heap → Nat → String → HValue → Heap
  | [], _, _, _ => []
  | c :: rest, 0, k, v => cellAssign c k v :: rest
  | c :: rest, a + 1, k, v => c :: heapStore rest a k v

def IPMessageGrant.ToPayloadRef (gr : IPMessageGrant) (h : Heap) : Heap × Nat :=
  let grant := (makeRef h).2
  let h := (makeRef h).1
  let h :=
    if len gr.serviceSid > 0 then heapStore h grant keyServiceSid (.str gr.serviceSid) else h
  let h :=
    if len gr.endpointID > 0 then heapStore h grant keyEndpointId (.str gr.endpointID) else h
  let h :=
    if len gr.deploymentRoleSid > 0 then
      heapStore h grant keyDepRoleSide (.str gr.deploymentRoleSid)
    else h
  let h :=
    if len gr.pushCredentialSid > 0 then
      heapStore h grant keyPushCredSid (.str gr.pushCredentialSid)
    else h
  (h, grant)

def ConversationsGrant.ToPayloadRef (gr : ConversationsGrant) (h : Heap) : Heap × Nat :=
  if len gr.configurationProfileSid > 0 then
    makeLit h [(keyConfProfSid, .str gr.configurationProfileSid)]
  else
    makeRef h

/-- Voice grant whose params map is a reference into the heap. -/
structure VoiceGrantRef where
  outgoingApplicationSid : String
  outgoingApplicationParams : Option Nat
  endpointID : String
  pushCredentialSid : String
  incoming : Bool
  deriving DecidableEq

def NewVoiceGrantRef (outAppSid : String) (outAppParams : Option Nat) (endpointID : String)
    (pushCredentialSid : String) (incoming : Bool) : VoiceGrantRef :=
  { outgoingApplicationSid := outAppSid
    outgoingApplicationParams := outAppParams
    endpointID := endpointID
    pushCredentialSid := pushCredentialSid
    incoming := incoming }

def VoiceGrantRef.ToPayloadRef (gr : VoiceGrantRef) (h : Heap) : Heap × Nat :=
  let outVoice := (makeRef h).2
  let h := (makeRef h).1
  let h :=
    if len gr.outgoingApplicationSid > 0 then
      heapStore h outVoice keyAppSid (.str gr.outgoingApplicationSid)
    else h
  let h :=
    if lenRef h gr.outgoingApplicationParams > 0 then
      heapStore h outVoice keyVoiceParams (.mapRef gr.outgoingApplicationParams)
    else h
  let grant := (makeRef h).2
  let h := (makeRef h).1
  let h := heapStore h grant keyVoiceOutgoing (.mapRef (some outVoice))
  let h :=
    if gr.incoming then
      heapStore (makeLit h [("allow", .bool true)]).1 grant keyVoiceIncoming
        (.mapRef (some (makeLit h [("allow", .bool true)]).2))
    else h
  let h :=
    if len gr.endpointID > 0 then heapStore h grant keyEndpointId (.str gr.endpointID) else h
  let h :=
    if len gr.pushCredentialSid > 0 then
      heapStore h grant keyPushCredSid (.str gr.pushCredentialSid)
    else h
  (h, grant)

def VideoGrant.ToPayloadRef (gr : VideoGrant) (h : Heap) : Heap × Nat :=
  if len gr.roomSID > 0 then
    makeLit h [(keyRoomSid, .str gr.roomSID)]
  else
    makeRef h

def ChatGrant.ToPayloadRef (cg : ChatGrant) (h : Heap) : Heap × Nat :=
  if len cg.serviceSid > 0 then
    makeLit h [(keyServiceSid, .str cg.serviceSid)]
  else
    makeRef h

/-- Value held by the heap under a reference, followed to the given depth; a
map below that depth is cut off and read as the nil interface. -/
def readValue (h : Heap) : Nat → HValue → Value
  | _, .null => .null
  | _, .str s => .str s
  | _, .bool b => .bool b
  | _, .num n => .num n
  | 0, .mapRef _ => .null
  | _ + 1, .mapRef none => .map none
  | n + 1, .mapRef (some a) => .map (some ((heapCell h a).map (fun e => (e.1, readValue h n e.2))))

/-- Entries of the map in cell a, their values followed to depth n. -/
def readCell (h : Heap) (n : Nat) (a : Nat) : Entries :=
  (heapCell h a).map (fun e => (e.1, readValue h n e.2))

/-- Map variable behind a reference, its values followed to depth n. -/
def readMap (h : Heap) (n : Nat) : Option Nat → GoMap
  | none => none
  | some a => some (readCell h n a)

/-- Whether a value is no dangling reference: a map reference points into the heap. -/
def validValue (h : Heap) : HValue → Bool
  | .mapRef (some a) => a < h.length
  | _ => true

/-- Whether no cell of the heap holds a dangling reference. -/
def heapClosed (h : Heap) : Bool :=
  h.all (fun c => c.all (fun e => validValue h e.2))

/-- The voice grant as a value: its params map read from the heap to depth n. -/
def VoiceGrantRef.read (h : Heap) (n : Nat) (gr : VoiceGrantRef) : VoiceGrant :=
  { outgoingApplicationSid := gr.outgoingApplicationSid
    outgoingApplicationParams := readMap h n gr.outgoingApplicationParams
    endpointID := gr.endpointID
    pushCredentialSid := gr.pushCredentialSid
    incoming := gr.incoming }

/-! ## Lemmas on len -/

theorem utf8ByteSize_go_cons_pos (c : Char) (cs : List Char) :
    0 < String.utf8ByteSize.go (c :: cs) := by
  simp only [String.utf8ByteSize.go]
  have := Char.utf8Size_pos c
  omega

/-- Only the empty string has length zero. -/
theorem len_eq_zero_iff (s : String) : len s = 0 ↔ s = "" := by
  obtain ⟨cs⟩ := s
  cases cs with
  | nil => simp [len, String.utf8ByteSize, String.utf8ByteSize.go]
  | cons c cs =>
    have hpos := utf8ByteSize_go_cons_pos c cs
    constructor
    · intro h
      simp only [len, String.utf8ByteSize] at h
      omega
    · intro h
      have hd := congrArg String.data h
      simp at hd

/-- The test len(s) > 0 of the source holds exactly for the non-empty strings. -/
theorem len_pos_iff (s : String) : len s > 0 ↔ s ≠ "" := by
  rw [← not_iff_not]
  simp [len_eq_zero_iff]

/-- The test len(m) > 0 of the source fails exactly for the empty maps. -/
theorem lenMap_pos_iff (m : GoMap) : lenMap m > 0 ↔ isEmptyMap m = false := by
  cases m with
  | none => simp [lenMap, isEmptyMap]
  | some es => cases es <;> simp [lenMap, isEmptyMap]

/-! ## Lemmas on maps and on structural equality -/

/-- An index that succeeds returns an entry of the map. -/
theorem mapIndex_mem {m : Entries} {k : String} {v : Value} (h : mapIndex m k = some v) :
    (k, v) ∈ m := by
  induction m with
  | nil => simp [mapIndex] at h
  | cons e rest ih =>
    obtain ⟨k2, v2⟩ := e
    by_cases hk : k2 = k
    · simp [mapIndex, hk] at h
      simp [hk, h]
    · simp only [mapIndex, hk, if_false] at h
      exact List.mem_cons_of_mem _ (ih h)

theorem charsLess_irrefl (a : List Char) : charsLess a a = false := by
  induction a with
  | nil => rfl
  | cons c cs ih => simp [charsLess, ih]

theorem keyLess_ne {a b : String} (h : keyLess a b = true) : a ≠ b := by
  intro e
  subst e
  simp [keyLess, charsLess_irrefl] at h

/-- Sorted insertion acts on the index like an assignment to a fresh key. -/
theorem mapIndex_insertByKey (k : String) (v : Value) (m : Entries) (q : String) :
    mapIndex (insertByKey k v m) q = if k = q then some v else mapIndex m q := by
  induction m with
  | nil => simp [insertByKey, mapIndex]
  | cons e rest ih =>
    obtain ⟨k2, v2⟩ := e
    by_cases hlt : keyLess k2 k = true
    · have hne := keyLess_ne hlt
      simp only [insertByKey, hlt, if_true, mapIndex, ih]
      by_cases hq : k2 = q
      · subst hq
        simp [Ne.symm hne]
      · simp [hq]
    · simp [insertByKey, hlt, mapIndex]

/-- The normal form of a map holds, under each key, the normal form of the
value that the map holds under that key. -/
theorem mapIndex_normEntries (m : Entries) (q : String) :
    mapIndex (Value.normEntries m) q = (mapIndex m q).map Value.norm := by
  induction m with
  | nil => simp [Value.normEntries, mapIndex]
  | cons e rest ih =>
    obtain ⟨k, v⟩ := e
    simp only [Value.normEntries, mapIndex_insertByKey, ih, mapIndex]
    by_cases hq : k = q <;> simp [hq]

theorem length_insertByKey (k : String) (v : Value) (m : Entries) :
    (insertByKey k v m).length = m.length + 1 := by
  induction m with
  | nil => simp [insertByKey]
  | cons e rest ih =>
    obtain ⟨k2, v2⟩ := e
    by_cases hlt : keyLess k2 k = true <;> simp [insertByKey, hlt, ih]

theorem length_normEntries (m : Entries) : (Value.normEntries m).length = m.length := by
  induction m with
  | nil => simp [Value.normEntries]
  | cons e rest ih =>
    obtain ⟨k, v⟩ := e
    simp [Value.normEntries, length_insertByKey, ih]

/-- Structurally equal maps hold structurally equal values under each key. -/
theorem payloadEq_index {m1 m2 : Entries} (h : payloadEq m1 m2) (q : String) :
    (mapIndex m1 q).map Value.norm = (mapIndex m2 q).map Value.norm := by
  rw [← mapIndex_normEntries, ← mapIndex_normEntries, h]

/-- Structurally equal maps have the same number of entries. -/
theorem payloadEq_length {m1 m2 : Entries} (h : payloadEq m1 m2) : m1.length = m2.length := by
  rw [← length_normEntries m1, ← length_normEntries m2, h]

/-- Structurally equal map variables are both empty or both non-empty. -/
theorem structEq_map_isEmptyMap {p1 p2 : GoMap} (h : structEq (.map p1) (.map p2)) :
    isEmptyMap p1 = isEmptyMap p2 := by
  cases p1 with
  | none =>
    cases p2 with
    | none => rfl
    | some ys => simp [structEq, Value.norm] at h
  | some xs =>
    cases p2 with
    | none => simp [structEq, Value.norm] at h
    | some ys =>
      have hn : Value.normEntries xs = Value.normEntries ys := by
        simpa [structEq, Value.norm] using h
      have hl := payloadEq_length hn
      cases xs <;> cases ys <;> simp [isEmptyMap] at hl ⊢

/-! ## The normal form decides structural equality -/

theorem charsLess_trichotomy :
    ∀ (a b : List Char), charsLess a b = false → charsLess b a = false → a = b
  | [], [], _, _ => rfl
  | [], _ :: _, h, _ => by simp [charsLess] at h
  | _ :: _, [], _, h => by simp [charsLess] at h
  | x :: xs, y :: ys, h1, h2 => by
      simp only [charsLess] at h1 h2
      by_cases hxy : x.toNat < y.toNat
      · simp [hxy] at h1
      · by_cases hyx : y.toNat < x.toNat
        · simp [hyx] at h2
        · have he : x.toNat = y.toNat := by omega
          have hc : x = y := by
            rw [← Char.ofNat_toNat x, ← Char.ofNat_toNat y, he]
          simp [hxy, he] at h1
          simp [hyx, he] at h2
          rw [hc, charsLess_trichotomy xs ys h1 h2]

theorem charsLess_trans :
    ∀ (a b c : List Char), charsLess a b = true → charsLess b c = true → charsLess a c = true
  | [], _, [], _, h => by cases ‹List Char› <;> simp [charsLess] at h
  | [], _, _ :: _, _, _ => by simp [charsLess]
  | _ :: _, [], _, h, _ => by simp [charsLess] at h
  | _ :: _, _ :: _, [], _, h => by simp [charsLess] at h
  | x :: xs, y :: ys, z :: zs, h1, h2 => by
      simp only [charsLess] at h1 h2 ⊢
      by_cases hxy : x.toNat < y.toNat
      · by_cases hyz : y.toNat < z.toNat
        · have : x.toNat < z.toNat := by omega
          simp [this]
        · by_cases he : y.toNat = z.toNat
          · have : x.toNat < z.toNat := by omega
            simp [this]
          · simp [hyz, he] at h2
      · by_cases he1 : x.toNat = y.toNat
        · simp [hxy, he1] at h1
          by_cases hyz : y.toNat < z.toNat
          · have : x.toNat < z.toNat := by omega
            simp [this]
          · by_cases he : y.toNat = z.toNat
            · simp [hyz, he] at h2
              have hxz : ¬ x.toNat < z.toNat := by omega
              have hez : x.toNat = z.toNat := by omega
              simp [hxz, hez]
              exact charsLess_trans xs ys zs h1 h2
            · simp [hyz, he] at h2
        · simp [hxy, he1] at h1

theorem keyLess_trichotomy {a b : String} (h1 : keyLess a b = false)
    (h2 : keyLess b a = false) : a = b :=
  String.ext (charsLess_trichotomy a.data b.data h1 h2)

theorem keyLess_trans {a b c : String} (h1 : keyLess a b = true) (h2 : keyLess b c = true) :
    keyLess a c = true :=
  charsLess_trans a.data b.data c.data h1 h2

theorem mem_insertByKey (k : String) (v : Value) (m : Entries) (e : String × Value) :
    e ∈ insertByKey k v m ↔ e = (k, v) ∨ e ∈ m := by
  induction m with
  | nil => simp [insertByKey]
  | cons e2 rest ih =>
    obtain ⟨k2, v2⟩ := e2
    by_cases hlt : keyLess k2 k = true
    · simp only [insertByKey, hlt, if_true, List.mem_cons, ih]
      tauto
    · simp [insertByKey, hlt]

theorem keysSorted_insertByKey (k : String) (v : Value) (m : Entries)
    (hs : keysSorted m) (hk : ∀ e ∈ m, e.1 ≠ k) : keysSorted (insertByKey k v m) := by
  induction m with
  | nil => simp [insertByKey, keysSorted]
  | cons e2 rest ih =>
    obtain ⟨k2, v2⟩ := e2
    have hs2 := List.pairwise_cons.1 hs
    have hne : k2 ≠ k := hk (k2, v2) (List.mem_cons_self _ _)
    by_cases hlt : keyLess k2 k = true
    · simp only [insertByKey, hlt, if_true]
      refine List.pairwise_cons.2 ⟨?_, ih hs2.2 (fun e he => hk e (List.mem_cons_of_mem _ he))⟩
      intro e he
      rcases (mem_insertByKey k v rest e).1 he with rfl | he
      · exact hlt
      · exact hs2.1 e he
    · have hkl : keyLess k k2 = true := by
        cases hb : keyLess k k2
        · exact absurd (keyLess_trichotomy (by simpa using hlt) hb) hne
        · rfl
      simp only [insertByKey, hlt]
      refine List.pairwise_cons.2 ⟨?_, hs⟩
      intro e he
      rcases List.mem_cons.1 he with rfl | he
      · exact hkl
      · exact keyLess_trans hkl (hs2.1 e he)

theorem mem_normEntries_key (m : Entries) (e : String × Value)
    (he : e ∈ Value.normEntries m) : e.1 ∈ mapKeys m := by
  induction m with
  | nil => simp [Value.normEntries] at he
  | cons e2 rest ih =>
    obtain ⟨k, v⟩ := e2
    simp only [Value.normEntries] at he
    rcases (mem_insertByKey _ _ _ _).1 he with rfl | he
    · simp [mapKeys]
    · have := ih he
      simp only [mapKeys, List.map_cons, List.mem_cons] at this ⊢
      exact Or.inr this

/-- The normal form of a map with pairwise distinct keys is sorted by key. -/
theorem keysSorted_normEntries (m : Entries) (hd : (mapKeys m).Nodup) :
    keysSorted (Value.normEntries m) := by
  induction m with
  | nil => simp [Value.normEntries, keysSorted]
  | cons e2 rest ih =>
    obtain ⟨k, v⟩ := e2
    simp only [mapKeys, List.map_cons, List.nodup_cons] at hd
    simp only [Value.normEntries]
    refine keysSorted_insertByKey _ _ _ (ih hd.2) ?_
    intro e he hek
    exact hd.1 (hek ▸ mem_normEntries_key rest e he)

theorem mapIndex_eq_none {m : Entries} {q : String} (h : ∀ e ∈ m, e.1 ≠ q) :
    mapIndex m q = none := by
  induction m with
  | nil => rfl
  | cons e2 rest ih =>
    obtain ⟨k, v⟩ := e2
    have hk : k ≠ q := h (k, v) (List.mem_cons_self _ _)
    simp only [mapIndex, hk, if_false]
    exact ih (fun e he => h e (List.mem_cons_of_mem _ he))

theorem mapIndex_eq_none_of_less {k q : String} {v : Value} {rest : Entries}
    (hs : keysSorted ((k, v) :: rest)) (hq : q = k ∨ keyLess q k = true) :
    mapIndex rest q = none := by
  have hs2 := List.pairwise_cons.1 hs
  refine mapIndex_eq_none (fun e he => ?_)
  have hke := hs2.1 e he
  rcases hq with rfl | hq
  · exact (keyLess_ne hke).symm
  · exact (keyLess_ne (keyLess_trans hq hke)).symm

/-- Two sorted entry lists with the same index under every key are equal. -/
theorem keysSorted_ext :
    ∀ (l1 l2 : Entries), keysSorted l1 → keysSorted l2 →
      (∀ q, mapIndex l1 q = mapIndex l2 q) → l1 = l2
  | [], [], _, _, _ => rfl
  | [], (k, v) :: _, _, _, h => by
      have := h k
      simp [mapIndex] at this
  | (k, v) :: _, [], _, _, h => by
      have := h k
      simp [mapIndex] at this
  | (k1, v1) :: r1, (k2, v2) :: r2, hs1, hs2, h => by
      have hk : k1 = k2 := by
        cases hb1 : keyLess k1 k2
        · cases hb2 : keyLess k2 k1
          · exact keyLess_trichotomy hb1 hb2
          · have hn := mapIndex_eq_none_of_less hs1 (Or.inr hb2)
            have := h k2
            simp [mapIndex, (keyLess_ne hb2).symm, hn] at this
        · have hn := mapIndex_eq_none_of_less hs2 (Or.inr hb1)
          have := h k1
          simp [mapIndex, (keyLess_ne hb1).symm, hn] at this
      subst hk
      have hv : v1 = v2 := by
        have := h k1
        simpa [mapIndex] using this
      subst hv
      have hrest : ∀ q, mapIndex r1 q = mapIndex r2 q := by
        intro q
        by_cases hq : k1 = q
        · rw [mapIndex_eq_none_of_less hs1 (Or.inl hq.symm),
            mapIndex_eq_none_of_less hs2 (Or.inl hq.symm)]
        · have := h q
          simpa [mapIndex, hq] using this
      rw [keysSorted_ext r1 r2 (List.pairwise_cons.1 hs1).2 (List.pairwise_cons.1 hs2).2 hrest]

/-- Structural equality of two maps with pairwise distinct keys is what it
should be: each key is present in both or in neither, and the values under it
are structurally equal. -/
theorem payloadEq_iff_index (m1 m2 : Entries) (hd1 : (mapKeys m1).Nodup)
    (hd2 : (mapKeys m2).Nodup) :
    payloadEq m1 m2
      ↔ ∀ q, (mapIndex m1 q).map Value.norm = (mapIndex m2 q).map Value.norm := by
  constructor
  · intro h q
    exact payloadEq_index h q
  · intro h
    refine keysSorted_ext _ _ (keysSorted_normEntries m1 hd1) (keysSorted_normEntries m2 hd2) ?_
    intro q
    rw [mapIndex_normEntries, mapIndex_normEntries]
    exact h q

/-! ## The payloads, key by key -/

theorem ipMessage_index_payload (g : IPMessageGrant) :
    mapIndex g.ToPayload "service_sid"
      = (if g.serviceSid = "" then none else some (.str g.serviceSid))
    ∧ mapIndex g.ToPayload "endpoint_id"
      = (if g.endpointID = "" then none else some (.str g.endpointID))
    ∧ mapIndex g.ToPayload "deployment_role_sid"
      = (if g.deploymentRoleSid = "" then none else some (.str g.deploymentRoleSid))
    ∧ mapIndex g.ToPayload "push_credential_sid"
      = (if g.pushCredentialSid = "" then none else some (.str g.pushCredentialSid)) := by
  obtain ⟨s1, s2, s3, s4⟩ := g
  by_cases h1 : s1 = "" <;> by_cases h2 : s2 = "" <;>
    by_cases h3 : s3 = "" <;> by_cases h4 : s4 = "" <;>
    simp [IPMessageGrant.ToPayload, len_pos_iff, h1, h2, h3, h4, make,
      mapAssign, mapIndex, keyServiceSid, keyEndpointId, keyDepRoleSide, keyPushCredSid]

theorem conversations_index_payload (g : ConversationsGrant) :
    mapIndex g.ToPayload "configuration_profile_sid"
      = (if g.configurationProfileSid = "" then none
          else some (.str g.configurationProfileSid)) := by
  obtain ⟨s⟩ := g
  by_cases h : s = "" <;>
    simp [ConversationsGrant.ToPayload, len_pos_iff, h, make, mapIndex, keyConfProfSid]

theorem video_index_payload (g : VideoGrant) :
    mapIndex g.ToPayload "room" = (if g.roomSID = "" then none else some (.str g.roomSID)) := by
  obtain ⟨s⟩ := g
  by_cases h : s = "" <;>
    simp [VideoGrant.ToPayload, len_pos_iff, h, make, mapIndex, keyRoomSid]

theorem chat_index_payload (g : ChatGrant) :
    mapIndex g.ToPayload "service_sid"
      = (if g.serviceSid = "" then none else some (.str g.serviceSid)) := by
  obtain ⟨s⟩ := g
  by_cases h : s = "" <;>
    simp [ChatGrant.ToPayload, len_pos_iff, h, make, mapIndex, keyServiceSid]

theorem voice_index_payload (g : VoiceGrant) :
    mapIndex g.ToPayload "outgoing"
      = some (.map (some
          ((if g.outgoingApplicationSid = "" then []
              else [("application_sid", .str g.outgoingApplicationSid)])
            ++ (if isEmptyMap g.outgoingApplicationParams = true then []
              else [("params", .map g.outgoingApplicationParams)]))))
    ∧ mapIndex g.ToPayload "incoming"
      = (if g.incoming = true then some (.map (some [("allow", .bool true)])) else none)
    ∧ mapIndex g.ToPayload "endpoint_id"
      = (if g.endpointID = "" then none else some (.str g.endpointID))
    ∧ mapIndex g.ToPayload "push_credential_sid"
      = (if g.pushCredentialSid = "" then none else some (.str g.pushCredentialSid)) := by
  obtain ⟨s1, p, s3, s4, inc⟩ := g
  by_cases h1 : s1 = "" <;> by_cases h2 : isEmptyMap p = true <;>
    by_cases h3 : s3 = "" <;> by_cases h4 : s4 = "" <;> cases inc <;>
    simp [VoiceGrant.ToPayload, len_pos_iff, lenMap_pos_iff, h1, h2, h3, h4, make,
      mapAssign, mapIndex, keyAppSid, keyVoiceParams, keyVoiceOutgoing, keyVoiceIncoming,
      keyEndpointId, keyPushCredSid]

/-- A string field can be read back from the entry it is encoded as. -/
theorem field_eq_of_entry_eq {a b : String}
    (h : (if a = "" then none else some (Value.str a)).map Value.norm
      = (if b = "" then none else some (Value.str b)).map Value.norm) : a = b := by
  by_cases ha : a = "" <;> by_cases hb : b = "" <;> simp [ha, hb, Value.norm] at h ⊢
  exact h

/-! ## Lemmas on the heap of maps -/

theorem heapStore_append (h : Heap) (c : Cell) (t : Heap) (k : String) (v : HValue) :
    heapStore (h ++ c :: t) h.length k v = h ++ cellAssign c k v :: t := by
  induction h with
  | nil => simp [heapStore]
  | cons c0 rest ih => simp [heapStore, ih]

theorem heapStore_append_succ (h : Heap) (c0 c : Cell) (t : Heap) (k : String) (v : HValue) :
    heapStore (h ++ c0 :: c :: t) (h.length + 1) k v = h ++ c0 :: cellAssign c k v :: t := by
  have := heapStore_append (h ++ [c0]) c t k v
  simpa using this

theorem heapCell_append_lt (h t : Heap) (a : Nat) (ha : a < h.length) :
    heapCell (h ++ t) a = heapCell h a := by
  simp [heapCell, List.getD, List.getElem?_append_left ha]

theorem heapCell_append_length (h : Heap) (c : Cell) (t : Heap) :
    heapCell (h ++ c :: t) h.length = c := by
  induction h with
  | nil => simp [heapCell]
  | cons c0 rest ih => simpa [heapCell] using ih

theorem heapCell_append_length_succ (h : Heap) (c0 c : Cell) (t : Heap) :
    heapCell (h ++ c0 :: c :: t) (h.length + 1) = c := by
  have := heapCell_append_length (h ++ [c0]) c t
  simpa using this

theorem heapCell_append_length_succ_succ (h : Heap) (c0 c1 c : Cell) (t : Heap) :
    heapCell (h ++ c0 :: c1 :: c :: t) (h.length + 2) = c := by
  have := heapCell_append_length (h ++ [c0, c1]) c t
  simpa using this

theorem lenRef_append (h t : Heap) (p : Option Nat) (hv : validValue h (.mapRef p) = true) :
    lenRef (h ++ t) p = lenRef h p := by
  cases p with
  | none => rfl
  | some a =>
    have ha : a < h.length := by simpa [validValue] using hv
    simp [lenRef, heapCell_append_lt h t a ha]

/-- Explicit heap and reference returned by the voice method. -/
theorem voiceRef_payload (g : VoiceGrantRef) (h : Heap)
    (hv : validValue h (.mapRef g.outgoingApplicationParams) = true) :
    g.ToPayloadRef h
      = (h ++ [ (if g.outgoingApplicationSid = "" then []
                  else [("application_sid", HValue.str g.outgoingApplicationSid)])
                ++ (if lenRef h g.outgoingApplicationParams > 0 then
                    [("params", HValue.mapRef g.outgoingApplicationParams)] else []),
                [("outgoing", HValue.mapRef (some h.length))]
                ++ (if g.incoming = true then
                    [("incoming", HValue.mapRef (some (h.length + 2)))] else [])
                ++ (if g.endpointID = "" then []
                  else [("endpoint_id", HValue.str g.endpointID)])
                ++ (if g.pushCredentialSid = "" then []
                  else [("push_credential_sid", HValue.str g.pushCredentialSid)]) ]
            ++ (if g.incoming = true then [[("allow", HValue.bool true)]] else []),
         h.length + 1) := by
  obtain ⟨s1, p, s3, s4, inc⟩ := g
  simp only at hv
  have hl : ∀ t, lenRef (h ++ t) p = lenRef h p := fun t => lenRef_append h t p hv
  by_cases h1 : s1 = "" <;> by_cases h2 : lenRef h p > 0 <;>
    by_cases h3 : s3 = "" <;> by_cases h4 : s4 = "" <;> cases inc <;>
    simp [VoiceGrantRef.ToPayloadRef, makeRef, makeLit, len_pos_iff, hl, h1, h2, h3, h4,
      heapStore_append, heapStore_append_succ, cellAssign,
      keyAppSid, keyVoiceParams, keyVoiceOutgoing, keyVoiceIncoming, keyEndpointId,
      keyPushCredSid]

theorem validValue_append (h t : Heap) (v : HValue) (hv : validValue h v = true) :
    validValue (h ++ t) v = true := by
  cases v with
  | mapRef r =>
    cases r with
    | none => rfl
    | some a =>
      simp only [validValue, decide_eq_true_eq, List.length_append] at hv ⊢
      omega
  | _ => rfl

theorem heapCell_mem : ∀ (h : Heap) (a : Nat), a < h.length → heapCell h a ∈ h
  | [], _, ha => by simp at ha
  | c :: rest, 0, _ => by simp [heapCell]
  | c :: rest, a + 1, ha => by
      have := heapCell_mem rest a (by simpa using ha)
      simp only [heapCell, List.getD_cons_succ] at this ⊢
      exact List.mem_cons_of_mem _ this

theorem heapCell_valid (h : Heap) (hc : heapClosed h = true) (a : Nat) :
    ∀ e ∈ heapCell h a, validValue h e.2 = true := by
  intro e he
  by_cases ha : a < h.length
  · have hmem : heapCell h a ∈ h := heapCell_mem h a ha
    simp only [heapClosed, List.all_eq_true] at hc
    exact hc _ hmem e he
  · have : heapCell h a = [] := by
      simp [heapCell, List.getD, List.getElem?_eq_none (Nat.le_of_not_lt ha)]
    rw [this] at he
    cases he

/-- Maps added at the end of a heap do not change what is read from it. -/
theorem readValue_append (h t : Heap) (hc : heapClosed h = true) :
    ∀ (n : Nat) (v : HValue), validValue h v = true → readValue (h ++ t) n v = readValue h n v
  | _, .null, _ => by simp [readValue]
  | _, .str _, _ => by simp [readValue]
  | _, .bool _, _ => by simp [readValue]
  | _, .num _, _ => by simp [readValue]
  | 0, .mapRef _, _ => by simp [readValue]
  | _ + 1, .mapRef none, _ => by simp [readValue]
  | n + 1, .mapRef (some a), hv => by
      have ha : a < h.length := by simpa [validValue] using hv
      simp only [readValue, heapCell_append_lt h t a ha]
      congr 2
      apply List.map_congr_left
      intro e he
      rw [readValue_append h t hc n e.2 (heapCell_valid h hc a e he)]

theorem readValue_mapRef (h : Heap) (n : Nat) (p : Option Nat) :
    readValue h (n + 1) (.mapRef p) = .map (readMap h n p) := by
  cases p <;> simp [readValue, readMap, readCell]

theorem readMap_append (h t : Heap) (hc : heapClosed h = true) (n : Nat) (p : Option Nat)
    (hv : validValue h (.mapRef p) = true) : readMap (h ++ t) n p = readMap h n p := by
  have := readValue_append h t hc (n + 1) (.mapRef p) hv
  simpa [readValue_mapRef] using this

theorem lenMap_readMap (h : Heap) (n : Nat) (p : Option Nat) :
    lenMap (readMap h n p) = lenRef h p := by
  cases p <;> simp [lenMap, readMap, readCell, lenRef]

/-- The voice payload built in the heap, read back two levels deeper than the
params map, is the payload of the grant read as a value. -/
theorem voiceRef_refines (g : VoiceGrantRef) (h : Heap) (n : Nat) (hc : heapClosed h = true)
    (hv : validValue h (.mapRef g.outgoingApplicationParams) = true) :
    readCell (g.ToPayloadRef h).1 (n + 2) (g.ToPayloadRef h).2 = (g.read h n).ToPayload := by
  rw [voiceRef_payload g h hv]
  obtain ⟨s1, p, s3, s4, inc⟩ := g
  simp only at hv
  have hf : ∀ t, readValue (h ++ t) (n + 1) (.mapRef p) = .map (readMap h n p) := by
    intro t
    rw [readValue_append h t hc (n + 1) (.mapRef p) hv, readValue_mapRef]
  have hlen : lenMap (readMap h n p) = lenRef h p := lenMap_readMap h n p
  by_cases h1 : s1 = "" <;> by_cases h2 : lenRef h p > 0 <;>
    by_cases h3 : s3 = "" <;> by_cases h4 : s4 = "" <;> cases inc <;>
    simp [readCell, VoiceGrantRef.read, VoiceGrant.ToPayload, len_pos_iff, hlen, h1, h2, h3, h4,
      heapCell_append_length, heapCell_append_length_succ, heapCell_append_length_succ_succ,
      readValue, hf, make, mapAssign,
      keyAppSid, keyVoiceParams, keyVoiceOutgoing, keyVoiceIncoming, keyEndpointId,
      keyPushCredSid]

/-- Explicit heap and reference returned by the messaging method. -/
theorem ipMessageRef_payload (g : IPMessageGrant) (h : Heap) :
    g.ToPayloadRef h
      = (h ++ [ (if g.serviceSid = "" then [] else [("service_sid", HValue.str g.serviceSid)])
                ++ (if g.endpointID = "" then []
                  else [("endpoint_id", HValue.str g.endpointID)])
                ++ (if g.deploymentRoleSid = "" then []
                  else [("deployment_role_sid", HValue.str g.deploymentRoleSid)])
                ++ (if g.pushCredentialSid = "" then []
                  else [("push_credential_sid", HValue.str g.pushCredentialSid)]) ],
         h.length) := by
  obtain ⟨s1, s2, s3, s4⟩ := g
  by_cases h1 : s1 = "" <;> by_cases h2 : s2 = "" <;>
    by_cases h3 : s3 = "" <;> by_cases h4 : s4 = "" <;>
    simp [IPMessageGrant.ToPayloadRef, makeRef, len_pos_iff, h1, h2, h3, h4,
      heapStore_append, cellAssign, keyServiceSid, keyEndpointId, keyDepRoleSide,
      keyPushCredSid]

theorem ipMessageRef_refines (g : IPMessageGrant) (h : Heap) (n : Nat) :
    readCell (g.ToPayloadRef h).1 n (g.ToPayloadRef h).2 = g.ToPayload := by
  rw [ipMessageRef_payload g h]
  obtain ⟨s1, s2, s3, s4⟩ := g
  by_cases h1 : s1 = "" <;> by_cases h2 : s2 = "" <;>
    by_cases h3 : s3 = "" <;> by_cases h4 : s4 = "" <;>
    simp [readCell, IPMessageGrant.ToPayload, len_pos_iff, h1, h2, h3, h4,
      heapCell_append_length, readValue, make, mapAssign, keyServiceSid, keyEndpointId,
      keyDepRoleSide, keyPushCredSid]

/-- Explicit heap and reference returned by the three methods that return a
map literal or an empty map. -/
theorem literalRef_payload (c : ConversationsGrant) (d : VideoGrant) (g : ChatGrant)
    (h : Heap) :
    c.ToPayloadRef h
      = (h ++ [if c.configurationProfileSid = "" then []
          else [("configuration_profile_sid", HValue.str c.configurationProfileSid)]], h.length)
    ∧ d.ToPayloadRef h
      = (h ++ [if d.roomSID = "" then [] else [("room", HValue.str d.roomSID)]], h.length)
    ∧ g.ToPayloadRef h
      = (h ++ [if g.serviceSid = "" then [] else [("service_sid", HValue.str g.serviceSid)]],
          h.length) := by
  obtain ⟨s1⟩ := c
  obtain ⟨s2⟩ := d
  obtain ⟨s3⟩ := g
  refine ⟨?_, ?_, ?_⟩
  · by_cases h1 : s1 = "" <;>
      simp [ConversationsGrant.ToPayloadRef, makeRef, makeLit, len_pos_iff, h1, keyConfProfSid]
  · by_cases h1 : s2 = "" <;>
      simp [VideoGrant.ToPayloadRef, makeRef, makeLit, len_pos_iff, h1, keyRoomSid]
  · by_cases h1 : s3 = "" <;>
      simp [ChatGrant.ToPayloadRef, makeRef, makeLit, len_pos_iff, h1, keyServiceSid]

theorem literalRef_refines (c : ConversationsGrant) (d : VideoGrant) (g : ChatGrant)
    (h : Heap) (n : Nat) :
    readCell (c.ToPayloadRef h).1 n (c.ToPayloadRef h).2 = c.ToPayload
    ∧ readCell (d.ToPayloadRef h).1 n (d.ToPayloadRef h).2 = d.ToPayload
    ∧ readCell (g.ToPayloadRef h).1 n (g.ToPayloadRef h).2 = g.ToPayload := by
  rw [(literalRef_payload c d g h).1, (literalRef_payload c d g h).2.1,
    (literalRef_payload c d g h).2.2]
  obtain ⟨s1⟩ := c
  obtain ⟨s2⟩ := d
  obtain ⟨s3⟩ := g
  refine ⟨?_, ?_, ?_⟩
  · by_cases h1 : s1 = "" <;>
      simp [readCell, ConversationsGrant.ToPayload, len_pos_iff, h1, heapCell_append_length,
        readValue, make, keyConfProfSid]
  · by_cases h1 : s2 = "" <;>
      simp [readCell, VideoGrant.ToPayload, len_pos_iff, h1, heapCell_append_length,
        readValue, make, keyRoomSid]
  · by_cases h1 : s3 = "" <;>
      simp [readCell, ChatGrant.ToPayload, len_pos_iff, h1, heapCell_append_length,
        readValue, make, keyServiceSid]

theorem heapClosed_append (h t : Heap) (hc : heapClosed h = true)
    (ht : ∀ c ∈ t, ∀ e ∈ c, validValue (h ++ t) e.2 = true) : heapClosed (h ++ t) = true := by
  simp only [heapClosed, List.all_eq_true] at hc ⊢
  intro c hmem e he
  rcases List.mem_append.1 hmem with hm | hm
  · exact validValue_append h t e.2 (hc c hm e he)
  · exact ht c hm e he

theorem mem_ite_right {α : Type} {c : Prop} [Decidable c] {e x : α}
    (h : e ∈ (if c then [] else [x])) : e = x := by
  split_ifs at h <;> simp at h
  exact h

theorem mem_ite_left {α : Type} {c : Prop} [Decidable c] {e x : α}
    (h : e ∈ (if c then [x] else [])) : e = x := by
  split_ifs at h <;> simp at h
  exact h

/-- The voice method leaves a heap without dangling references, in which its
payload and the params map of the grant are valid references. -/
theorem voiceRef_closed (g : VoiceGrantRef) (h : Heap) (hc : heapClosed h = true)
    (hv : validValue h (.mapRef g.outgoingApplicationParams) = true) :
    heapClosed (g.ToPayloadRef h).1 = true
    ∧ validValue (g.ToPayloadRef h).1 (.mapRef (some (g.ToPayloadRef h).2)) = true
    ∧ validValue (g.ToPayloadRef h).1 (.mapRef g.outgoingApplicationParams) = true := by
  rw [voiceRef_payload g h hv]
  obtain ⟨s1, p, s3, s4, inc⟩ := g
  simp only [List.append_assoc] at hv ⊢
  refine ⟨?_, ?_, validValue_append _ _ _ hv⟩
  · apply heapClosed_append h _ hc
    intro c hcmem e he
    rcases List.mem_append.1 hcmem with hcm | hcm
    · simp only [List.mem_cons, List.mem_singleton, List.not_mem_nil, or_false] at hcm
      rcases hcm with rfl | rfl
      · rcases List.mem_append.1 he with he | he
        · rw [mem_ite_right he]
          rfl
        · rw [mem_ite_left he]
          exact validValue_append h _ _ hv
      · rcases List.mem_append.1 he with he | he
        · rw [List.mem_singleton.1 he]
          simp only [validValue, decide_eq_true_eq, List.length_append, List.length_cons,
            List.length_nil]
          omega
        · rcases List.mem_append.1 he with he | he
          · rw [mem_ite_left he]
            cases inc
            · simp at he
            · simp only [validValue, decide_eq_true_eq, List.length_append, List.length_cons,
                List.length_nil, if_true]
              omega
          · rcases List.mem_append.1 he with he | he
            · rw [mem_ite_right he]
              rfl
            · rw [mem_ite_right he]
              rfl
    · cases inc
      · simp at hcm
      · simp only [if_true, List.mem_singleton] at hcm
        subst hcm
        rw [List.mem_singleton.1 he]
        rfl
  · cases inc <;> simp [validValue]

/-- Voice grants with equal strings and flag and structurally equal params maps
have structurally equal payloads. -/
theorem voice_payload_congr (v1 v2 : VoiceGrant)
    (hs : v1.outgoingApplicationSid = v2.outgoingApplicationSid)
    (hp : paramsEq v1.outgoingApplicationParams v2.outgoingApplicationParams)
    (he : v1.endpointID = v2.endpointID) (hq : v1.pushCredentialSid = v2.pushCredentialSid)
    (hi : v1.incoming = v2.incoming) : payloadEq v1.ToPayload v2.ToPayload := by
  obtain ⟨s1, p1, e1, q1, i1⟩ := v1
  obtain ⟨s2, p2, e2, q2, i2⟩ := v2
  simp only at hs hp he hq hi
  subst hs he hq hi
  have hcases : (isEmptyMap p1 = true ∧ isEmptyMap p2 = true)
      ∨ (isEmptyMap p1 = false ∧ isEmptyMap p2 = false
          ∧ (Value.map p1).norm = (Value.map p2).norm) := by
    rcases hp with hp | hp
    · exact Or.inl hp
    · have hE := structEq_map_isEmptyMap hp
      cases hb : isEmptyMap p1
      · exact Or.inr ⟨rfl, by rw [← hE, hb], hp⟩
      · exact Or.inl ⟨rfl, by rw [← hE, hb]⟩
  rcases hcases with ⟨b1, b2⟩ | ⟨b1, b2, hn⟩
  · have l1 : ¬ lenMap p1 > 0 := by rw [lenMap_pos_iff]; simp [b1]
    have l2 : ¬ lenMap p2 > 0 := by rw [lenMap_pos_iff]; simp [b2]
    simp [payloadEq, VoiceGrant.ToPayload, l1, l2]
  · have l1 : lenMap p1 > 0 := (lenMap_pos_iff p1).2 b1
    have l2 : lenMap p2 > 0 := (lenMap_pos_iff p2).2 b2
    cases p1 with
    | none => simp [isEmptyMap] at b1
    | some es1 =>
    cases p2 with
    | none => simp [isEmptyMap] at b2
    | some es2 =>
    simp only [Value.norm, Value.map.injEq, Option.some.injEq] at hn
    by_cases a1 : s1 = "" <;> by_cases a3 : e1 = "" <;> by_cases a4 : q1 = "" <;>
      cases i1 <;>
      simp [payloadEq, VoiceGrant.ToPayload, len_pos_iff, l1, l2, a1, a3, a4, make, mapAssign,
        keyAppSid, keyVoiceParams, keyVoiceOutgoing, keyVoiceIncoming, keyEndpointId,
        keyPushCredSid, Value.normEntries, Value.norm, insertByKey, keyLess, charsLess, hn]

/-! ## Theorems -/

/-- C1: whatever the constructor arguments, Key returns "ip_messaging", "rtc",
"voice", "video" and "chat" for grants built by NewIPMessageGrant,
NewConversationsGrant, NewVoiceGrant, NewVideoGrant and NewChatGrant. -/
theorem key_constant (serviceSid endpointID deploymentRoleSid pushCredentialSid : String)
    (confSid outAppSid voiceEndpointID voicePushSid roomSid chatSid : String)
    (outAppParams : GoMap) (incoming : Bool) :
    (NewIPMessageGrant serviceSid endpointID deploymentRoleSid pushCredentialSid).Key
        = "ip_messaging"
    ∧ (NewConversationsGrant confSid).Key = "rtc"
    ∧ (NewVoiceGrant outAppSid outAppParams voiceEndpointID voicePushSid incoming).Key = "voice"
    ∧ (NewVideoGrant roomSid).Key = "video"
    ∧ (NewChatGrant chatSid).Key = "chat" :=
  ⟨rfl, rfl, rfl, rfl, rfl⟩

/-- C2: the payload of a messaging grant has "service_sid", "endpoint_id",
"deployment_role_sid" and "push_credential_sid" exactly when the corresponding
constructor argument is a non-empty string (the index is none for an empty
string), each key that is present maps to the string value of its field, and
the payload has no key besides these four. -/
theorem ipMessage_payload_keys
    (serviceSid endpointID deploymentRoleSid pushCredentialSid : String) :
    mapIndex (NewIPMessageGrant serviceSid endpointID deploymentRoleSid
        pushCredentialSid).ToPayload "service_sid"
      = (if serviceSid = "" then none else some (.str serviceSid))
    ∧ mapIndex (NewIPMessageGrant serviceSid endpointID deploymentRoleSid
        pushCredentialSid).ToPayload "endpoint_id"
      = (if endpointID = "" then none else some (.str endpointID))
    ∧ mapIndex (NewIPMessageGrant serviceSid endpointID deploymentRoleSid
        pushCredentialSid).ToPayload "deployment_role_sid"
      = (if deploymentRoleSid = "" then none else some (.str deploymentRoleSid))
    ∧ mapIndex (NewIPMessageGrant serviceSid endpointID deploymentRoleSid
        pushCredentialSid).ToPayload "push_credential_sid"
      = (if pushCredentialSid = "" then none else some (.str pushCredentialSid))
    ∧ mapKeys (NewIPMessageGrant serviceSid endpointID deploymentRoleSid
        pushCredentialSid).ToPayload
      ⊆ ["service_sid", "endpoint_id", "deployment_role_sid", "push_credential_sid"] := by
  by_cases h1 : serviceSid = "" <;> by_cases h2 : endpointID = "" <;>
    by_cases h3 : deploymentRoleSid = "" <;> by_cases h4 : pushCredentialSid = "" <;>
    simp [IPMessageGrant.ToPayload, NewIPMessageGrant, len_pos_iff, h1, h2, h3, h4, make,
      mapAssign, mapIndex, mapKeys, keyServiceSid, keyEndpointId, keyDepRoleSide, keyPushCredSid]

/-- C3: the payload of a voice grant always has the key "outgoing", mapped to
an inner map; the inner map has "application_sid" (mapped to the SID) exactly
when the SID is non-empty, has "params" (mapped to the params map) exactly
when the params map is non-empty, a nil map counting as empty, and has no
other key. -/
theorem voice_outgoing_inner (outAppSid : String) (outAppParams : GoMap)
    (endpointID pushCredentialSid : String) (incoming : Bool) :
    ∃ inner : Entries,
      mapIndex (NewVoiceGrant outAppSid outAppParams endpointID pushCredentialSid
          incoming).ToPayload "outgoing" = some (.map (some inner))
      ∧ mapIndex inner "application_sid"
          = (if outAppSid = "" then none else some (.str outAppSid))
      ∧ mapIndex inner "params"
          = (if isEmptyMap outAppParams = true then none else some (.map outAppParams))
      ∧ mapKeys inner ⊆ ["application_sid", "params"] := by
  by_cases h1 : outAppSid = "" <;> by_cases h2 : isEmptyMap outAppParams = true <;>
    by_cases h3 : endpointID = "" <;> by_cases h4 : pushCredentialSid = "" <;>
    cases incoming <;>
    simp [VoiceGrant.ToPayload, NewVoiceGrant, len_pos_iff, lenMap_pos_iff, h1, h2, h3, h4,
      make, mapAssign, mapIndex, mapKeys, keyAppSid, keyVoiceParams, keyVoiceOutgoing,
      keyVoiceIncoming, keyEndpointId, keyPushCredSid]

/-- C4: when incoming is true the payload of a voice grant maps "incoming" to
the one-entry map with "allow" mapped to true; when incoming is false the
payload has no "incoming" key. -/
theorem voice_incoming (gr : VoiceGrant) :
    mapIndex gr.ToPayload "incoming"
      = (if gr.incoming = true then some (.map (some [("allow", .bool true)])) else none) := by
  obtain ⟨outAppSid, outAppParams, endpointID, pushCredentialSid, incoming⟩ := gr
  by_cases h3 : endpointID = "" <;> by_cases h4 : pushCredentialSid = "" <;>
    cases incoming <;>
    simp [VoiceGrant.ToPayload, len_pos_iff, h3, h4, make,
      mapAssign, mapIndex, keyVoiceOutgoing, keyVoiceIncoming, keyEndpointId, keyPushCredSid]

/-- C5: the payload of a voice grant has "endpoint_id" (mapped to the endpoint
ID) exactly when the endpoint ID is non-empty and "push_credential_sid"
(mapped to the push-credential SID) exactly when that SID is non-empty, and
each of its keys is one of "outgoing", "incoming", "endpoint_id",
"push_credential_sid". -/
theorem voice_top_level_keys (gr : VoiceGrant) :
    mapIndex gr.ToPayload "endpoint_id"
      = (if gr.endpointID = "" then none else some (.str gr.endpointID))
    ∧ mapIndex gr.ToPayload "push_credential_sid"
      = (if gr.pushCredentialSid = "" then none else some (.str gr.pushCredentialSid))
    ∧ mapKeys gr.ToPayload ⊆ ["outgoing", "incoming", "endpoint_id", "push_credential_sid"] := by
  obtain ⟨outAppSid, outAppParams, endpointID, pushCredentialSid, incoming⟩ := gr
  by_cases h3 : endpointID = "" <;> by_cases h4 : pushCredentialSid = "" <;>
    cases incoming <;>
    simp [VoiceGrant.ToPayload, len_pos_iff, h3, h4, make,
      mapAssign, mapIndex, mapKeys, keyVoiceOutgoing, keyVoiceIncoming, keyEndpointId,
      keyPushCredSid]

/-- C6: for a non-empty outgoing-application SID and a non-empty params map,
the payload of the voice grant maps "outgoing" to the map whose two entries
are "application_sid" with the SID and "params" with the params map. -/
theorem voice_outgoing_both (outAppSid : String) (outAppParams : GoMap)
    (endpointID pushCredentialSid : String) (incoming : Bool)
    (hsid : outAppSid ≠ "") (hparams : isEmptyMap outAppParams = false) :
    mapIndex (NewVoiceGrant outAppSid outAppParams endpointID pushCredentialSid
        incoming).ToPayload "outgoing"
      = some (.map (some [("application_sid", .str outAppSid),
          ("params", .map outAppParams)])) := by
  by_cases h3 : endpointID = "" <;> by_cases h4 : pushCredentialSid = "" <;>
    cases incoming <;>
    simp [VoiceGrant.ToPayload, NewVoiceGrant, len_pos_iff, lenMap_pos_iff, hsid, hparams,
      h3, h4, make, mapAssign, mapIndex, keyAppSid, keyVoiceParams, keyVoiceOutgoing,
      keyVoiceIncoming, keyEndpointId, keyPushCredSid]

/-- Witness of C6 at the SID "AP123", one call parameter, incoming allowed. -/
theorem voice_outgoing_both_witness :
    "AP123" ≠ "" ∧ isEmptyMap (some [("to", .str "+15551234")]) = false
    ∧ mapIndex (NewVoiceGrant "AP123" (some [("to", .str "+15551234")]) "" "" true).ToPayload
        "outgoing"
      = some (.map (some [("application_sid", .str "AP123"),
          ("params", .map (some [("to", .str "+15551234")]))])) :=
  ⟨by decide, by decide,
    voice_outgoing_both "AP123" (some [("to", .str "+15551234")]) "" "" true
      (by decide) (by decide)⟩

/-- C7: the payload of NewChatGrant(s) is the one-entry map with "service_sid"
mapped to s when s is non-empty and the empty map when s is empty; the payload
of NewVideoGrant(s) is the one-entry map with "room" mapped to s when s is
non-empty and the empty map when s is empty; in particular for the chat grant
of "SVxxxx" and the video grant of the empty string. -/
theorem chat_video_payload (s : String) :
    (NewChatGrant s).ToPayload = (if s = "" then [] else [("service_sid", .str s)])
    ∧ (NewVideoGrant s).ToPayload = (if s = "" then [] else [("room", .str s)])
    ∧ (NewChatGrant "SVxxxx").ToPayload = [("service_sid", .str "SVxxxx")]
    ∧ (NewVideoGrant "").ToPayload = [] := by
  refine ⟨?_, ?_, by decide, by decide⟩ <;>
    by_cases h : s = "" <;>
    simp [ChatGrant.ToPayload, NewChatGrant, VideoGrant.ToPayload, NewVideoGrant, len_pos_iff,
      h, make, keyServiceSid, keyRoomSid]

/-- C8: the payload of NewConversationsGrant(s) is the one-entry map with
"configuration_profile_sid" mapped to s when s is non-empty, and a map with
zero entries when s is empty. -/
theorem conversations_payload (s : String) :
    (NewConversationsGrant s).ToPayload
      = (if s = "" then [] else [("configuration_profile_sid", .str s)])
    ∧ (NewConversationsGrant "").ToPayload.length = 0 := by
  refine ⟨?_, by decide⟩
  by_cases h : s = "" <;>
    simp [ConversationsGrant.ToPayload, NewConversationsGrant, len_pos_iff, h, make,
      keyConfProfSid]

/-- C9: with every field empty or zero the messaging, real-time-communication,
video and chat grants have the empty payload, and the voice grant, for a nil as
for an allocated empty params map, has the one-entry payload that maps
"outgoing" to the empty map. -/
theorem empty_fields_payload :
    (NewIPMessageGrant "" "" "" "").ToPayload = []
    ∧ (NewConversationsGrant "").ToPayload = []
    ∧ (NewVideoGrant "").ToPayload = []
    ∧ (NewChatGrant "").ToPayload = []
    ∧ (NewVoiceGrant "" none "" "" false).ToPayload = [("outgoing", .map (some []))]
    ∧ (NewVoiceGrant "" (some []) "" "" false).ToPayload = [("outgoing", .map (some []))] := by
  decide

/-- C10, as stated, fails: the voice grant built with the outgoing-application
SID "AP123" and nothing else maps "outgoing" to a one-entry map, not to the
empty map. -/
theorem voice_outgoing_not_always_empty :
    mapIndex (NewVoiceGrant "AP123" none "" "" false).ToPayload "outgoing"
      = some (.map (some [("application_sid", .str "AP123")]))
    ∧ mapIndex (NewVoiceGrant "AP123" none "" "" false).ToPayload "outgoing"
      ≠ some (.map (some [])) := by
  decide

/-- C10, amended: whatever its fields, the payload of a voice grant has the key
"outgoing" mapped to an inner map, and that inner map is empty exactly when the
outgoing-application SID is empty and the params map is empty or nil. -/
theorem voice_outgoing_always_present (gr : VoiceGrant) :
    ∃ inner : Entries,
      mapIndex gr.ToPayload "outgoing" = some (.map (some inner))
      ∧ (inner = [] ↔
          (gr.outgoingApplicationSid = "" ∧ isEmptyMap gr.outgoingApplicationParams = true)) := by
  obtain ⟨outAppSid, outAppParams, endpointID, pushCredentialSid, incoming⟩ := gr
  by_cases h1 : outAppSid = "" <;> by_cases h2 : isEmptyMap outAppParams = true <;>
    by_cases h3 : endpointID = "" <;> by_cases h4 : pushCredentialSid = "" <;>
    cases incoming <;>
    simp [VoiceGrant.ToPayload, len_pos_iff, lenMap_pos_iff, h1, h2, h3, h4,
      make, mapAssign, mapIndex, keyAppSid, keyVoiceParams, keyVoiceOutgoing,
      keyVoiceIncoming, keyEndpointId, keyPushCredSid]

/-- C11, as stated, fails: the voice grant in which only the endpoint ID is
set has two sub-keys, "outgoing" mapped to the empty map besides "endpoint_id",
and likewise when only the push-credential SID is set. -/
theorem voice_single_field_two_keys :
    mapKeys (NewVoiceGrant "" none "EP1" "" false).ToPayload = ["outgoing", "endpoint_id"]
    ∧ mapIndex (NewVoiceGrant "" none "EP1" "" false).ToPayload "outgoing"
      = some (.map (some []))
    ∧ mapKeys (NewVoiceGrant "" none "" "CR1" false).ToPayload
      = ["outgoing", "push_credential_sid"] := by
  decide

/-- C11, amended: a voice grant in which only the endpoint ID is non-empty
(SIDs empty, params nil or empty, incoming false) has the payload of exactly
two entries, "outgoing" mapped to the empty map and "endpoint_id" mapped to the
endpoint ID; when only the push-credential SID is non-empty the two entries are
"outgoing" mapped to the empty map and "push_credential_sid" mapped to that
SID. -/
theorem voice_single_field_payload (s : String) (params : GoMap)
    (hs : s ≠ "") (hparams : isEmptyMap params = true) :
    (NewVoiceGrant "" params s "" false).ToPayload
      = [("outgoing", .map (some [])), ("endpoint_id", .str s)]
    ∧ (NewVoiceGrant "" params "" s false).ToPayload
      = [("outgoing", .map (some [])), ("push_credential_sid", .str s)] := by
  have hlen : ¬ lenMap params > 0 := by
    rw [lenMap_pos_iff]
    simp [hparams]
  have h0 : ¬ len "" > 0 := by simp [len_pos_iff]
  have h1 : len s > 0 := (len_pos_iff s).2 hs
  simp [VoiceGrant.ToPayload, NewVoiceGrant, hlen, h0, h1, make, mapAssign,
    keyVoiceOutgoing, keyEndpointId, keyPushCredSid]

/-- Witness of the amended C11 at the value "EP1" with a nil params map. -/
theorem voice_single_field_payload_witness :
    "EP1" ≠ "" ∧ isEmptyMap none = true
    ∧ (NewVoiceGrant "" none "EP1" "" false).ToPayload
      = [("outgoing", .map (some [])), ("endpoint_id", .str "EP1")]
    ∧ (NewVoiceGrant "" none "" "EP1" false).ToPayload
      = [("outgoing", .map (some [])), ("push_credential_sid", .str "EP1")] :=
  ⟨by decide, by decide, voice_single_field_payload "EP1" none (by decide) (by decide)⟩

/-- C12: ToPayload has no side effect and is a function of the fields of the
grant alone. The methods are run on a heap h of maps without dangling
references, the voice grant holding its params map by reference. For each of
the five variants: (1) the heap after the call is the heap before it with new
maps added at the end, so no map that existed is changed; (2) the payload read
back from the heap is ToPayload of the fields, whatever else the heap holds
(for voice the fields are read to depth n and the payload to depth n + 2, the
params map lying two levels down); (3) a second call on the same grant, made
on the heap left by the first, returns a payload structurally equal to the
first, and leaves the first payload as it was; (4) two grants with equal
fields, on two heaps h and h2, have structurally equal payloads, where for
voice the two params maps need only be structurally equal. -/
theorem payload_pure (h h2 : Heap) (n : Nat) (m m2 : IPMessageGrant)
    (c c2 : ConversationsGrant) (v v2 : VoiceGrantRef) (d d2 : VideoGrant) (g g2 : ChatGrant)
    (hc : heapClosed h = true)
    (hv : validValue h (.mapRef v.outgoingApplicationParams) = true)
    (hc2 : heapClosed h2 = true)
    (hv2 : validValue h2 (.mapRef v2.outgoingApplicationParams) = true) :
    (h <+: (m.ToPayloadRef h).1 ∧ h <+: (c.ToPayloadRef h).1 ∧ h <+: (v.ToPayloadRef h).1
      ∧ h <+: (d.ToPayloadRef h).1 ∧ h <+: (g.ToPayloadRef h).1)
    ∧ (readCell (m.ToPayloadRef h).1 n (m.ToPayloadRef h).2 = m.ToPayload
      ∧ readCell (c.ToPayloadRef h).1 n (c.ToPayloadRef h).2 = c.ToPayload
      ∧ readCell (v.ToPayloadRef h).1 (n + 2) (v.ToPayloadRef h).2 = (v.read h n).ToPayload
      ∧ readCell (d.ToPayloadRef h).1 n (d.ToPayloadRef h).2 = d.ToPayload
      ∧ readCell (g.ToPayloadRef h).1 n (g.ToPayloadRef h).2 = g.ToPayload)
    ∧ (payloadEq (readCell (m.ToPayloadRef h).1 n (m.ToPayloadRef h).2)
        (readCell (m.ToPayloadRef (m.ToPayloadRef h).1).1 n
          (m.ToPayloadRef (m.ToPayloadRef h).1).2)
      ∧ payloadEq (readCell (c.ToPayloadRef h).1 n (c.ToPayloadRef h).2)
        (readCell (c.ToPayloadRef (c.ToPayloadRef h).1).1 n
          (c.ToPayloadRef (c.ToPayloadRef h).1).2)
      ∧ payloadEq (readCell (v.ToPayloadRef h).1 (n + 2) (v.ToPayloadRef h).2)
        (readCell (v.ToPayloadRef (v.ToPayloadRef h).1).1 (n + 2)
          (v.ToPayloadRef (v.ToPayloadRef h).1).2)
      ∧ readCell (v.ToPayloadRef (v.ToPayloadRef h).1).1 (n + 2) (v.ToPayloadRef h).2
        = readCell (v.ToPayloadRef h).1 (n + 2) (v.ToPayloadRef h).2
      ∧ payloadEq (readCell (d.ToPayloadRef h).1 n (d.ToPayloadRef h).2)
        (readCell (d.ToPayloadRef (d.ToPayloadRef h).1).1 n
          (d.ToPayloadRef (d.ToPayloadRef h).1).2)
      ∧ payloadEq (readCell (g.ToPayloadRef h).1 n (g.ToPayloadRef h).2)
        (readCell (g.ToPayloadRef (g.ToPayloadRef h).1).1 n
          (g.ToPayloadRef (g.ToPayloadRef h).1).2))
    ∧ (m.serviceSid = m2.serviceSid → m.endpointID = m2.endpointID →
        m.deploymentRoleSid = m2.deploymentRoleSid →
        m.pushCredentialSid = m2.pushCredentialSid →
        payloadEq (readCell (m.ToPayloadRef h).1 n (m.ToPayloadRef h).2)
          (readCell (m2.ToPayloadRef h2).1 n (m2.ToPayloadRef h2).2))
    ∧ (c.configurationProfileSid = c2.configurationProfileSid →
        payloadEq (readCell (c.ToPayloadRef h).1 n (c.ToPayloadRef h).2)
          (readCell (c2.ToPayloadRef h2).1 n (c2.ToPayloadRef h2).2))
    ∧ (v.outgoingApplicationSid = v2.outgoingApplicationSid →
        paramsEq (readMap h n v.outgoingApplicationParams)
          (readMap h2 n v2.outgoingApplicationParams) →
        v.endpointID = v2.endpointID → v.pushCredentialSid = v2.pushCredentialSid →
        v.incoming = v2.incoming →
        payloadEq (readCell (v.ToPayloadRef h).1 (n + 2) (v.ToPayloadRef h).2)
          (readCell (v2.ToPayloadRef h2).1 (n + 2) (v2.ToPayloadRef h2).2))
    ∧ (d.roomSID = d2.roomSID →
        payloadEq (readCell (d.ToPayloadRef h).1 n (d.ToPayloadRef h).2)
          (readCell (d2.ToPayloadRef h2).1 n (d2.ToPayloadRef h2).2))
    ∧ (g.serviceSid = g2.serviceSid →
        payloadEq (readCell (g.ToPayloadRef h).1 n (g.ToPayloadRef h).2)
          (readCell (g2.ToPayloadRef h2).1 n (g2.ToPayloadRef h2).2)) := by
  have hcl := voiceRef_closed v h hc hv
  have hext : ∃ t, (v.ToPayloadRef h).1 = h ++ t := by
    rw [voiceRef_payload v h hv]
    exact ⟨_, List.append_assoc _ _ _⟩
  obtain ⟨t, ht⟩ := hext
  have hread : v.read (v.ToPayloadRef h).1 n = v.read h n := by
    simp only [VoiceGrantRef.read, ht, readMap_append h t hc n _ hv]
  refine ⟨⟨?_, ?_, ?_, ?_, ?_⟩, ⟨?_, ?_, ?_, ?_, ?_⟩, ⟨?_, ?_, ?_, ?_, ?_, ?_⟩, ?_, ?_, ?_, ?_, ?_⟩
  · rw [ipMessageRef_payload]
    exact List.prefix_append _ _
  · rw [(literalRef_payload c d g h).1]
    exact List.prefix_append _ _
  · rw [ht]
    exact List.prefix_append _ _
  · rw [(literalRef_payload c d g h).2.1]
    exact List.prefix_append _ _
  · rw [(literalRef_payload c d g h).2.2]
    exact List.prefix_append _ _
  · exact ipMessageRef_refines m h n
  · exact (literalRef_refines c d g h n).1
  · exact voiceRef_refines v h n hc hv
  · exact (literalRef_refines c d g h n).2.1
  · exact (literalRef_refines c d g h n).2.2
  · rw [ipMessageRef_refines, ipMessageRef_refines]
    rfl
  · rw [(literalRef_refines c d g h n).1, (literalRef_refines c d g _ n).1]
    rfl
  · rw [voiceRef_refines v h n hc hv, voiceRef_refines v _ n hcl.1 hcl.2.2, hread]
    rfl
  · obtain ⟨t2, ht2⟩ : ∃ t2, (v.ToPayloadRef (v.ToPayloadRef h).1).1
        = (v.ToPayloadRef h).1 ++ t2 := by
      rw [voiceRef_payload v _ hcl.2.2]
      exact ⟨_, List.append_assoc _ _ _⟩
    have := readMap_append (v.ToPayloadRef h).1 t2 hcl.1 (n + 2) (some (v.ToPayloadRef h).2)
      hcl.2.1
    rw [← ht2] at this
    simpa [readMap] using this
  · rw [(literalRef_refines c d g h n).2.1, (literalRef_refines c d g _ n).2.1]
    rfl
  · rw [(literalRef_refines c d g h n).2.2, (literalRef_refines c d g _ n).2.2]
    rfl
  · intro e1 e2 e3 e4
    have : m = m2 := by
      obtain ⟨a1, a2, a3, a4⟩ := m
      obtain ⟨b1, b2, b3, b4⟩ := m2
      simp only at e1 e2 e3 e4
      rw [e1, e2, e3, e4]
    rw [ipMessageRef_refines, ipMessageRef_refines, this]
    rfl
  · intro e1
    have : c = c2 := by
      obtain ⟨a1⟩ := c
      obtain ⟨b1⟩ := c2
      simp only at e1
      rw [e1]
    rw [(literalRef_refines c d g h n).1, (literalRef_refines c2 d g h2 n).1, this]
    rfl
  · intro e1 e2 e3 e4 e5
    rw [voiceRef_refines v h n hc hv, voiceRef_refines v2 h2 n hc2 hv2]
    exact voice_payload_congr _ _ e1 e2 e3 e4 e5
  · intro e1
    have : d = d2 := by
      obtain ⟨a1⟩ := d
      obtain ⟨b1⟩ := d2
      simp only at e1
      rw [e1]
    rw [(literalRef_refines c d g h n).2.1, (literalRef_refines c d2 g h2 n).2.1, this]
    rfl
  · intro e1
    have : g = g2 := by
      obtain ⟨a1⟩ := g
      obtain ⟨b1⟩ := g2
      simp only at e1
      rw [e1]
    rw [(literalRef_refines c d g h n).2.2, (literalRef_refines c d g2 h2 n).2.2, this]
    rfl

/-- Witness of C12: a heap whose cell 0 is the params map of the grant and
refers to cell 1, and a second heap that holds the same params map in cell 2
with its entries in the other order; the two payloads are structurally equal
and the first call only adds maps at the end of the heap. -/
theorem payload_pure_witness :
    heapClosed [[("to", .str "+1555"), ("opts", .mapRef (some 1))], [("x", .num 1)]] = true
    ∧ heapClosed [[("x", .num 1)], [("junk", .bool false)],
        [("opts", .mapRef (some 0)), ("to", .str "+1555")]] = true
    ∧ paramsEq
        (readMap [[("to", .str "+1555"), ("opts", .mapRef (some 1))], [("x", .num 1)]] 1
          (some 0))
        (readMap [[("x", .num 1)], [("junk", .bool false)],
          [("opts", .mapRef (some 0)), ("to", .str "+1555")]] 1 (some 2))
    ∧ payloadEq
        (readCell
          ((NewVoiceGrantRef "AP1" (some 0) "ep" "" true).ToPayloadRef
            [[("to", .str "+1555"), ("opts", .mapRef (some 1))], [("x", .num 1)]]).1 3
          ((NewVoiceGrantRef "AP1" (some 0) "ep" "" true).ToPayloadRef
            [[("to", .str "+1555"), ("opts", .mapRef (some 1))], [("x", .num 1)]]).2)
        (readCell
          ((NewVoiceGrantRef "AP1" (some 2) "ep" "" true).ToPayloadRef
            [[("x", .num 1)], [("junk", .bool false)],
              [("opts", .mapRef (some 0)), ("to", .str "+1555")]]).1 3
          ((NewVoiceGrantRef "AP1" (some 2) "ep" "" true).ToPayloadRef
            [[("x", .num 1)], [("junk", .bool false)],
              [("opts", .mapRef (some 0)), ("to", .str "+1555")]]).2)
    ∧ [[("to", .str "+1555"), ("opts", .mapRef (some 1))], [("x", .num 1)]]
        <+: ((NewVoiceGrantRef "AP1" (some 0) "ep" "" true).ToPayloadRef
            [[("to", .str "+1555"), ("opts", .mapRef (some 1))], [("x", .num 1)]]).1 :=
  ⟨by decide, by decide, by decide,
    (payload_pure
      [[("to", .str "+1555"), ("opts", .mapRef (some 1))], [("x", .num 1)]]
      [[("x", .num 1)], [("junk", .bool false)],
        [("opts", .mapRef (some 0)), ("to", .str "+1555")]] 1
      (NewIPMessageGrant "IS1" "" "RL1" "") (NewIPMessageGrant "IS1" "" "RL1" "")
      (NewConversationsGrant "CP1") (NewConversationsGrant "CP1")
      (NewVoiceGrantRef "AP1" (some 0) "ep" "" true)
      (NewVoiceGrantRef "AP1" (some 2) "ep" "" true)
      (NewVideoGrant "RM1") (NewVideoGrant "RM1")
      (NewChatGrant "SV1") (NewChatGrant "SV1")
      (by decide) (by decide) (by decide) (by decide)).2.2.2.2.2.1 rfl (by decide) rfl rfl rfl,
    (payload_pure
      [[("to", .str "+1555"), ("opts", .mapRef (some 1))], [("x", .num 1)]]
      [[("x", .num 1)], [("junk", .bool false)],
        [("opts", .mapRef (some 0)), ("to", .str "+1555")]] 1
      (NewIPMessageGrant "IS1" "" "RL1" "") (NewIPMessageGrant "IS1" "" "RL1" "")
      (NewConversationsGrant "CP1") (NewConversationsGrant "CP1")
      (NewVoiceGrantRef "AP1" (some 0) "ep" "" true)
      (NewVoiceGrantRef "AP1" (some 2) "ep" "" true)
      (NewVideoGrant "RM1") (NewVideoGrant "RM1")
      (NewChatGrant "SV1") (NewChatGrant "SV1")
      (by decide) (by decide) (by decide) (by decide)).1.2.2.1⟩

/-- C13: in the payload of a grant of any of the five variants no key is
mapped to the empty string, to the nil interface or to a nil map, and in the
inner "outgoing" map of a voice grant "application_sid" is not mapped to the
empty string and "params" is mapped neither to a nil map nor to a map without
entries. -/
theorem payload_no_empty_value (m : IPMessageGrant) (c : ConversationsGrant) (v : VoiceGrant)
    (d : VideoGrant) (h : ChatGrant) (k : String) :
    (mapIndex m.ToPayload k ≠ some (.str "") ∧ mapIndex m.ToPayload k ≠ some .null
      ∧ mapIndex m.ToPayload k ≠ some (.map none))
    ∧ (mapIndex c.ToPayload k ≠ some (.str "") ∧ mapIndex c.ToPayload k ≠ some .null
      ∧ mapIndex c.ToPayload k ≠ some (.map none))
    ∧ (mapIndex v.ToPayload k ≠ some (.str "") ∧ mapIndex v.ToPayload k ≠ some .null
      ∧ mapIndex v.ToPayload k ≠ some (.map none))
    ∧ (mapIndex d.ToPayload k ≠ some (.str "") ∧ mapIndex d.ToPayload k ≠ some .null
      ∧ mapIndex d.ToPayload k ≠ some (.map none))
    ∧ (mapIndex h.ToPayload k ≠ some (.str "") ∧ mapIndex h.ToPayload k ≠ some .null
      ∧ mapIndex h.ToPayload k ≠ some (.map none))
    ∧ (∃ inner : Entries,
        mapIndex v.ToPayload "outgoing" = some (.map (some inner))
        ∧ mapIndex inner "application_sid" ≠ some (.str "")
        ∧ mapIndex inner "params" ≠ some (.map none)
        ∧ mapIndex inner "params" ≠ some (.map (some []))) := by
  refine ⟨?_, ?_, ?_, ?_, ?_, ?_⟩
  · obtain ⟨s1, s2, s3, s4⟩ := m
    refine ⟨fun e => ?_, fun e => ?_, fun e => ?_⟩ <;>
      have hmem := mapIndex_mem e <;>
      by_cases h1 : s1 = "" <;> by_cases h2 : s2 = "" <;>
      by_cases h3 : s3 = "" <;> by_cases h4 : s4 = "" <;>
      simp [IPMessageGrant.ToPayload, len_pos_iff, h1, h2, h3, h4, make, mapAssign,
        keyServiceSid, keyEndpointId, keyDepRoleSide, keyPushCredSid, eq_comm (a := "")] at hmem
  · obtain ⟨s⟩ := c
    refine ⟨fun e => ?_, fun e => ?_, fun e => ?_⟩ <;>
      have hmem := mapIndex_mem e <;>
      by_cases h1 : s = "" <;>
      simp [ConversationsGrant.ToPayload, len_pos_iff, h1, make, eq_comm (a := "")] at hmem
  · obtain ⟨s1, p, s3, s4, inc⟩ := v
    refine ⟨fun e => ?_, fun e => ?_, fun e => ?_⟩ <;>
      have hmem := mapIndex_mem e <;>
      by_cases h3 : s3 = "" <;> by_cases h4 : s4 = "" <;> cases inc <;>
      simp [VoiceGrant.ToPayload, len_pos_iff, h3, h4, make, mapAssign,
        keyVoiceOutgoing, keyVoiceIncoming, keyEndpointId, keyPushCredSid,
        eq_comm (a := "")] at hmem
  · obtain ⟨s⟩ := d
    refine ⟨fun e => ?_, fun e => ?_, fun e => ?_⟩ <;>
      have hmem := mapIndex_mem e <;>
      by_cases h1 : s = "" <;>
      simp [VideoGrant.ToPayload, len_pos_iff, h1, make, eq_comm (a := "")] at hmem
  · obtain ⟨s⟩ := h
    refine ⟨fun e => ?_, fun e => ?_, fun e => ?_⟩ <;>
      have hmem := mapIndex_mem e <;>
      by_cases h1 : s = "" <;>
      simp [ChatGrant.ToPayload, len_pos_iff, h1, make, eq_comm (a := "")] at hmem
  · obtain ⟨s1, p, s3, s4, inc⟩ := v
    by_cases h1 : s1 = "" <;> by_cases h2 : isEmptyMap p = true <;>
      by_cases h3 : s3 = "" <;> by_cases h4 : s4 = "" <;> cases inc <;>
      simp [VoiceGrant.ToPayload, len_pos_iff, lenMap_pos_iff, h1, h2, h3, h4, make,
        mapAssign, mapIndex, keyAppSid, keyVoiceParams, keyVoiceOutgoing, keyVoiceIncoming,
        keyEndpointId, keyPushCredSid] <;>
      refine ⟨?_, ?_⟩ <;> intro hc <;> simp [hc, isEmptyMap] at h2

/-- C14: ToPayload loses no information. Two grants of one variant whose
payloads are structurally equal have equal fields: all four strings for
messaging, the single string for the real-time-communication, video and chat
grants; for voice the outgoing-application SID, endpoint ID, push-credential
SID and incoming flag are equal and the params maps are structurally equal, a
nil map and a map without entries counting as the same. -/
theorem payload_injective (m1 m2 : IPMessageGrant) (c1 c2 : ConversationsGrant)
    (v1 v2 : VoiceGrant) (d1 d2 : VideoGrant) (h1 h2 : ChatGrant) :
    (payloadEq m1.ToPayload m2.ToPayload → m1 = m2)
    ∧ (payloadEq c1.ToPayload c2.ToPayload → c1 = c2)
    ∧ (payloadEq v1.ToPayload v2.ToPayload →
        v1.outgoingApplicationSid = v2.outgoingApplicationSid
        ∧ v1.endpointID = v2.endpointID
        ∧ v1.pushCredentialSid = v2.pushCredentialSid
        ∧ v1.incoming = v2.incoming
        ∧ paramsEq v1.outgoingApplicationParams v2.outgoingApplicationParams)
    ∧ (payloadEq d1.ToPayload d2.ToPayload → d1 = d2)
    ∧ (payloadEq h1.ToPayload h2.ToPayload → h1 = h2) := by
  refine ⟨fun e => ?_, fun e => ?_, fun e => ?_, fun e => ?_, fun e => ?_⟩
  · have ha := payloadEq_index e "service_sid"
    have hb := payloadEq_index e "endpoint_id"
    have hc := payloadEq_index e "deployment_role_sid"
    have hd := payloadEq_index e "push_credential_sid"
    rw [(ipMessage_index_payload m1).1, (ipMessage_index_payload m2).1] at ha
    rw [(ipMessage_index_payload m1).2.1, (ipMessage_index_payload m2).2.1] at hb
    rw [(ipMessage_index_payload m1).2.2.1, (ipMessage_index_payload m2).2.2.1] at hc
    rw [(ipMessage_index_payload m1).2.2.2, (ipMessage_index_payload m2).2.2.2] at hd
    obtain ⟨a1, b1, c1, d1⟩ := m1
    obtain ⟨a2, b2, c2, d2⟩ := m2
    simp only [IPMessageGrant.mk.injEq]
    exact ⟨field_eq_of_entry_eq ha, field_eq_of_entry_eq hb, field_eq_of_entry_eq hc,
      field_eq_of_entry_eq hd⟩
  · have ha := payloadEq_index e "configuration_profile_sid"
    rw [conversations_index_payload c1, conversations_index_payload c2] at ha
    obtain ⟨a1⟩ := c1
    obtain ⟨a2⟩ := c2
    simp only [ConversationsGrant.mk.injEq]
    exact field_eq_of_entry_eq ha
  · have ho := payloadEq_index e "outgoing"
    have hi := payloadEq_index e "incoming"
    have he := payloadEq_index e "endpoint_id"
    have hp := payloadEq_index e "push_credential_sid"
    rw [(voice_index_payload v1).1, (voice_index_payload v2).1] at ho
    rw [(voice_index_payload v1).2.1, (voice_index_payload v2).2.1] at hi
    rw [(voice_index_payload v1).2.2.1, (voice_index_payload v2).2.2.1] at he
    rw [(voice_index_payload v1).2.2.2, (voice_index_payload v2).2.2.2] at hp
    obtain ⟨s1, p1, e1, c1, i1⟩ := v1
    obtain ⟨s2, p2, e2, c2, i2⟩ := v2
    simp only [Option.map_some', Option.some.injEq, Value.norm, Value.map.injEq] at ho
    have hinner : payloadEq _ _ := ho
    have hs := payloadEq_index hinner "application_sid"
    have hq := payloadEq_index hinner "params"
    refine ⟨?_, field_eq_of_entry_eq he, field_eq_of_entry_eq hp, ?_, ?_⟩
    · show s1 = s2
      simp only at hs
      by_cases a1 : s1 = "" <;> by_cases a2 : s2 = "" <;>
        by_cases b1 : isEmptyMap p1 = true <;> by_cases b2 : isEmptyMap p2 = true <;>
        simp [a1, a2, b1, b2, mapIndex, Value.norm] at hs ⊢
      all_goals exact hs
    · show i1 = i2
      simp only at hi
      cases i1 <;> cases i2 <;> simp at hi ⊢
    · show paramsEq p1 p2
      simp only at hq
      by_cases a1 : s1 = "" <;> by_cases a2 : s2 = "" <;>
        by_cases b1 : isEmptyMap p1 = true <;> by_cases b2 : isEmptyMap p2 = true <;>
        simp [a1, a2, b1, b2, mapIndex] at hq <;>
        first
          | exact Or.inl ⟨b1, b2⟩
          | exact Or.inr hq
  · have ha := payloadEq_index e "room"
    rw [video_index_payload d1, video_index_payload d2] at ha
    obtain ⟨a1⟩ := d1
    obtain ⟨a2⟩ := d2
    simp only [VideoGrant.mk.injEq]
    exact field_eq_of_entry_eq ha
  · have ha := payloadEq_index e "service_sid"
    rw [chat_index_payload h1, chat_index_payload h2] at ha
    obtain ⟨a1⟩ := h1
    obtain ⟨a2⟩ := h2
    simp only [ChatGrant.mk.injEq]
    exact field_eq_of_entry_eq ha

/-- Witness of C14: two voice grants whose params maps list the same entries
in a different order have structurally equal payloads, and their fields are
equal as the theorem says; likewise for a grant of each other variant. -/
theorem payload_injective_witness :
    payloadEq
        (NewVoiceGrant "AP1" (some [("a", .num 1), ("b", .str "x")]) "ep" "" true).ToPayload
        (NewVoiceGrant "AP1" (some [("b", .str "x"), ("a", .num 1)]) "ep" "" true).ToPayload
    ∧ paramsEq (some [("a", .num 1), ("b", .str "x")]) (some [("b", .str "x"), ("a", .num 1)])
    ∧ payloadEq (NewIPMessageGrant "IS1" "" "RL1" "").ToPayload
        (NewIPMessageGrant "IS1" "" "RL1" "").ToPayload
    ∧ NewIPMessageGrant "IS1" "" "RL1" "" = NewIPMessageGrant "IS1" "" "RL1" "" :=
  ⟨by decide,
    ((payload_injective (NewIPMessageGrant "IS1" "" "RL1" "") (NewIPMessageGrant "IS1" "" "RL1" "")
      (NewConversationsGrant "CP1") (NewConversationsGrant "CP1")
      (NewVoiceGrant "AP1" (some [("a", .num 1), ("b", .str "x")]) "ep" "" true)
      (NewVoiceGrant "AP1" (some [("b", .str "x"), ("a", .num 1)]) "ep" "" true)
      (NewVideoGrant "RM1") (NewVideoGrant "RM1")
      (NewChatGrant "SV1") (NewChatGrant "SV1")).2.2.1 (by decide)).2.2.2.2,
    by decide,
    (payload_injective (NewIPMessageGrant "IS1" "" "RL1" "") (NewIPMessageGrant "IS1" "" "RL1" "")
      (NewConversationsGrant "CP1") (NewConversationsGrant "CP1")
      (NewVoiceGrant "AP1" (some [("a", .num 1), ("b", .str "x")]) "ep" "" true)
      (NewVoiceGrant "AP1" (some [("b", .str "x"), ("a", .num 1)]) "ep" "" true)
      (NewVideoGrant "RM1") (NewVideoGrant "RM1")
      (NewChatGrant "SV1") (NewChatGrant "SV1")).1 (by decide)⟩

/-- C15: the payload of a messaging grant has as many entries as it has
non-empty fields among its four strings, at most 4, and the payload of a voice
grant has one entry plus one for incoming being true, one for a non-empty
endpoint ID and one for a non-empty push-credential SID, between 1 and 4; in
both payloads the keys are pairwise distinct. -/
theorem payload_entry_count (m : IPMessageGrant) (v : VoiceGrant) :
    m.ToPayload.length
      = (if m.serviceSid = "" then 0 else 1) + (if m.endpointID = "" then 0 else 1)
        + (if m.deploymentRoleSid = "" then 0 else 1)
        + (if m.pushCredentialSid = "" then 0 else 1)
    ∧ m.ToPayload.length ≤ 4
    ∧ (mapKeys m.ToPayload).Nodup
    ∧ v.ToPayload.length
      = 1 + (if v.incoming = true then 1 else 0) + (if v.endpointID = "" then 0 else 1)
        + (if v.pushCredentialSid = "" then 0 else 1)
    ∧ 1 ≤ v.ToPayload.length ∧ v.ToPayload.length ≤ 4
    ∧ (mapKeys v.ToPayload).Nodup := by
  obtain ⟨s1, s2, s3, s4⟩ := m
  obtain ⟨t1, p, t3, t4, inc⟩ := v
  refine ⟨?_, ?_, ?_, ?_, ?_, ?_, ?_⟩
  · by_cases h1 : s1 = "" <;> by_cases h2 : s2 = "" <;>
      by_cases h3 : s3 = "" <;> by_cases h4 : s4 = "" <;>
      simp [IPMessageGrant.ToPayload, len_pos_iff, h1, h2, h3, h4, make, mapAssign,
        keyServiceSid, keyEndpointId, keyDepRoleSide, keyPushCredSid]
  · by_cases h1 : s1 = "" <;> by_cases h2 : s2 = "" <;>
      by_cases h3 : s3 = "" <;> by_cases h4 : s4 = "" <;>
      simp [IPMessageGrant.ToPayload, len_pos_iff, h1, h2, h3, h4, make, mapAssign,
        keyServiceSid, keyEndpointId, keyDepRoleSide, keyPushCredSid]
  · by_cases h1 : s1 = "" <;> by_cases h2 : s2 = "" <;>
      by_cases h3 : s3 = "" <;> by_cases h4 : s4 = "" <;>
      simp [IPMessageGrant.ToPayload, len_pos_iff, h1, h2, h3, h4, make, mapAssign, mapKeys,
        keyServiceSid, keyEndpointId, keyDepRoleSide, keyPushCredSid]
  · by_cases h3 : t3 = "" <;> by_cases h4 : t4 = "" <;> cases inc <;>
      simp [VoiceGrant.ToPayload, len_pos_iff, h3, h4, make, mapAssign,
        keyVoiceOutgoing, keyVoiceIncoming, keyEndpointId, keyPushCredSid]
  · by_cases h3 : t3 = "" <;> by_cases h4 : t4 = "" <;> cases inc <;>
      simp [VoiceGrant.ToPayload, len_pos_iff, h3, h4, make, mapAssign,
        keyVoiceOutgoing, keyVoiceIncoming, keyEndpointId, keyPushCredSid]
  · by_cases h3 : t3 = "" <;> by_cases h4 : t4 = "" <;> cases inc <;>
      simp [VoiceGrant.ToPayload, len_pos_iff, h3, h4, make, mapAssign,
        keyVoiceOutgoing, keyVoiceIncoming, keyEndpointId, keyPushCredSid]
  · by_cases h3 : t3 = "" <;> by_cases h4 : t4 = "" <;> cases inc <;>
      simp [VoiceGrant.ToPayload, len_pos_iff, h3, h4, make, mapAssign, mapKeys,
        keyVoiceOutgoing, keyVoiceIncoming, keyEndpointId, keyPushCredSid]

/-- C16: the namespace keys of the five variants are pairwise distinct: grants
of two different variants never have the same Key. -/
theorem keys_pairwise_distinct (m : IPMessageGrant) (c : ConversationsGrant) (v : VoiceGrant)
    (d : VideoGrant) (h : ChatGrant) :
    m.Key ≠ c.Key ∧ m.Key ≠ v.Key ∧ m.Key ≠ d.Key ∧ m.Key ≠ h.Key
    ∧ c.Key ≠ v.Key ∧ c.Key ≠ d.Key ∧ c.Key ≠ h.Key
    ∧ v.Key ≠ d.Key ∧ v.Key ≠ h.Key
    ∧ d.Key ≠ h.Key := by
  simp only [IPMessageGrant.Key, ConversationsGrant.Key, VoiceGrant.Key, VideoGrant.Key,
    ChatGrant.Key, ipMessagingGrant, conversationsGrant, voiceGrant, videoGrant, chatGrant]
  decide

end Token
